import Mathlib

/-!
Verification of the constraint-based field validation and generic
serialization/deserialization framework of the `transparent_classroom` client
SDK, as a shallow embedding in Lean 4.

The embedding follows the Python sources:
* `api/interfaces/validators/constraints/__init__.py` (constraint hierarchy),
* `api/interfaces/validators/__init__.py` (`Validator`),
* `api/interfaces/fields/__init__.py` (`Field`, `InterfaceField`, field sets),
* `models/__init__.py` (`JSONModel.to_dict` / `from_dict`),
* `models/utilities.py` (`Formatter`),
* `models/deserializers/__init__.py` (deserializer pre-transforms).

Python values are modelled by the inductive `PyVal`; Python floats are
modelled as rationals (only `isinstance` checks and order comparisons are
performed on them here, on which the two agree for the values considered).
Raising an exception is modelled with `Except`: `.error e` is a raised
exception, `.ok b` a normal boolean return.
-/

namespace TC

/-- A `datetime.date`: the stdlib guarantees `1 ≤ month ≤ 12` etc. at
construction time; validity is tracked by the `ValidDate` predicate below. -/
structure PyDate where
  year : Nat
  month : Nat
  day : Nat
deriving DecidableEq, Repr

/-- A `datetime.datetime`. `offset` is the UTC offset of `tzinfo` in minutes
(`Option.none` models a naive datetime without `tzinfo`). -/
structure PyDateTime where
  year : Nat
  month : Nat
  day : Nat
  hour : Nat
  minute : Nat
  second : Nat
  microsecond : Nat
  offset : Option Int
deriving DecidableEq, Repr

mutual

/-- The universe of Python values handled by the framework: JSON scalars,
dates, lists, dicts (in insertion order, keys unique), and model-object
instances (`obj cls attrs` models an object of class `cls` whose `vars()` is
`attrs`, in attribute-insertion order).  `PyList`/`PyDict` are the list and
dict spines, kept mutual with `PyVal` so that every function on values is
structurally recursive (and hence computes by kernel reduction). -/
inductive PyVal where
  | none
  | int (n : Int)
  | float (q : ℚ)
  | bool (b : Bool)
  | str (s : String)
  | date (d : PyDate)
  | datetime (t : PyDateTime)
  | list (items : PyList)
  | dict (entries : PyDict)
  | obj (cls : String) (attrs : PyDict)
deriving DecidableEq

/-- The spine of a Python list value. -/
inductive PyList where
  | nil
  | cons (head : PyVal) (tail : PyList)
deriving DecidableEq

/-- The spine of a Python dict value (key/value pairs in insertion order). -/
inductive PyDict where
  | nil
  | cons (key : String) (value : PyVal) (tail : PyDict)
deriving DecidableEq

end

/-- View a list spine as a Lean list. -/
def PyList.toList : PyList → List PyVal
  | .nil => []
  | .cons v t => v :: t.toList

/-- Build a list spine from a Lean list. -/
def PyList.ofList : List PyVal → PyList
  | [] => .nil
  | v :: t => .cons v (PyList.ofList t)

/-- View a dict spine as a Lean association list. -/
def PyDict.toList : PyDict → List (String × PyVal)
  | .nil => []
  | .cons k v t => (k, v) :: t.toList

/-- Build a dict spine from a Lean association list. -/
def PyDict.ofList : List (String × PyVal) → PyDict
  | [] => .nil
  | (k, v) :: t => .cons k v (PyDict.ofList t)

/-- Number of entries of a dict. -/
def PyDict.length : PyDict → Nat
  | .nil => 0
  | .cons _ _ t => t.length + 1

/-- The keys of a dict, in insertion order (`data.keys()`). -/
def PyDict.keys : PyDict → List String
  | .nil => []
  | .cons k _ t => k :: t.keys

/-- Python classes appearing in `isinstance` checks of the constraint code
(`numbers.Number` is the abstract base class used by `IsNumeric`). -/
inductive PTy where
  | noneType
  | intType
  | floatType
  | boolType
  | strType
  | dateType
  | datetimeType
  | listType
  | dictType
  | numberType
  | objType
deriving DecidableEq, Repr

/-- `isinstance(v, t)`, including the subclass relations the source code
depends on: `bool` is a subclass of `int`, both are `numbers.Number`, and
`datetime` is a subclass of `date`. -/
def isinst : PyVal → PTy → Bool
  | .int _, t => t == .intType || t == .numberType
  | .float _, t => t == .floatType || t == .numberType
  | .bool _, t => t == .boolType || t == .intType || t == .numberType
  | .str _, t => t == .strType
  | .date _, t => t == .dateType
  | .datetime _, t => t == .datetimeType || t == .dateType
  | .list _, t => t == .listType
  | .dict _, t => t == .dictType
  | .none, t => t == .noneType
  | .obj _ _, t => t == .objType

/-- `type(v)`: the exact class of a value. -/
def typeOf : PyVal → PTy
  | .none => .noneType
  | .int _ => .intType
  | .float _ => .floatType
  | .bool _ => .boolType
  | .str _ => .strType
  | .date _ => .dateType
  | .datetime _ => .datetimeType
  | .list _ => .listType
  | .dict _ => .dictType
  | .obj _ _ => .objType

/-- Numeric magnitude of a Python number (booleans count as 0/1); only ever
used on values that passed a numeric `isinstance` check. -/
def toRat : PyVal → ℚ
  | .int n => (n : ℚ)
  | .float q => q
  | .bool b => if b then 1 else 0
  | _ => 0

mutual

/-- Python `==` on the modelled values.  Numbers compare across `int`,
`float` and `bool` by magnitude; aware datetimes and dicts are compared
structurally (the canonical forms produced in this development make this
agree with Python's comparison; no claim compares dicts or mixed-offset
datetimes with `==`). -/
def pyEq : PyVal → PyVal → Bool
  | .none, .none => true
  | .int a, .int b => a == b
  | .int a, .float b => (a : ℚ) == b
  | .int a, .bool b => a == (if b then 1 else 0)
  | .float a, .int b => a == (b : ℚ)
  | .float a, .float b => a == b
  | .float a, .bool b => a == (if b then (1 : ℚ) else 0)
  | .bool a, .int b => (if a then (1 : Int) else 0) == b
  | .bool a, .float b => (if a then (1 : ℚ) else 0) == b
  | .bool a, .bool b => a == b
  | .str a, .str b => a == b
  | .date a, .date b => a == b
  | .datetime a, .datetime b => a == b
  | .list a, .list b => pyEqList a b
  | .dict a, .dict b => a == b
  | _, _ => false

/-- Elementwise list equality. -/
def pyEqList : PyList → PyList → Bool
  | .nil, .nil => true
  | .cons a as, .cons b bs => pyEq a b && pyEqList as bs
  | _, _ => false

end

/-- The exception classes of `validators/exceptions/__init__.py` that
constraint checks can raise, with the data their constructors receive. -/
inductive ConstraintEx where
  | nullField
  | numericValueError (value : PyVal)
  | integerValueError (value : PyVal)
  | notGreaterThanValueError (value : PyVal) (minValue : ℚ)
  | stringValueError (value : PyVal)
  | dateValueError (value : PyVal)
  | dateTimeValueError (value : PyVal)
  | listValueError (value : PyVal)
  | selectionValueError (value : PyVal) (options : List PyVal)
deriving DecidableEq

/-- The `exception_type` attribute of an `IsType` constraint: which
`TypeConstraintException` subclass to raise. -/
inductive ExcKind where
  | numeric
  | integer
  | string
  | date
  | datetime
  | list
deriving DecidableEq, Repr

/-- Instantiate an exception class at an offending value. -/
def mkExc : ExcKind → PyVal → ConstraintEx
  | .numeric, v => .numericValueError v
  | .integer, v => .integerValueError v
  | .string, v => .stringValueError v
  | .date, v => .dateValueError v
  | .datetime, v => .dateTimeValueError v
  | .list, v => .listValueError v

/-- The concrete `Constraint` subclasses, with their configuration.
`isType` is the generic `IsType(data_type, exception_type)`; the named
subclasses fix their `data_type`/`exception_type` in their constructors, so
the configuration is determined by the constructor here. -/
inductive CKind where
  | isType (dataType : PTy) (excKind : ExcKind)
  | isNumeric
  | isInteger
  | isGreaterThan (minValue : ℚ)
  | isPositiveInteger
  | isBoolean
  | isRequired
  | isString
  | isDate
  | isDateTime
  | selection (options : List PyVal)
  | isList
deriving DecidableEq

/-- A constraint instance: its class (with configuration) and its mutable
`nullable` flag. -/
structure Constraint where
  kind : CKind
  nullable : Bool
deriving DecidableEq

/-- `self.__class__.__name__`, the only part of an instance other than
`nullable` (and, for `IsGreaterThan`, `min_value`; for `SelectionConstraint`,
`options`) that enters `__hash__`/`__eq__`. -/
def className : CKind → String
  | .isType _ _ => "IsType"
  | .isNumeric => "IsNumeric"
  | .isInteger => "IsInteger"
  | .isGreaterThan _ => "IsGreaterThan"
  | .isPositiveInteger => "IsPositiveInteger"
  | .isBoolean => "IsBoolean"
  | .isRequired => "IsRequired"
  | .isString => "IsString"
  | .isDate => "IsDate"
  | .isDateTime => "IsDateTime"
  | .selection _ => "SelectionConstraint"
  | .isList => "IsList"

/-- `set(xs) == set(ys)` under Python equality (mutual inclusion). -/
def pySetEq (xs ys : List PyVal) : Bool :=
  xs.all (fun x => ys.any (fun y => pyEq x y)) &&
    ys.all (fun y => xs.any (fun x => pyEq x y))

/-- `Constraint.__eq__`: equal hash (class name, `nullable`, and the extra
configuration hashed by `IsGreaterThan`/`SelectionConstraint`) plus equal
`nullable`.  `SelectionConstraint.__eq__` overrides this with option-set
comparison and requires the other side to be a `SelectionConstraint`. -/
def constraintBEq (a b : Constraint) : Bool :=
  match a.kind, b.kind with
  | .selection o1, .selection o2 => pySetEq o1 o2 && a.nullable == b.nullable
  | .selection _, _ => false
  | _, .selection _ => false
  | .isGreaterThan m1, .isGreaterThan m2 => m1 == m2 && a.nullable == b.nullable
  | k1, k2 => className k1 == className k2 && a.nullable == b.nullable

/-- Decidable equality for `Except`, so that concrete runs of the embedded
code can be checked with `decide`. -/
instance {ε α : Type} [DecidableEq ε] [DecidableEq α] : DecidableEq (Except ε α)
  | .ok a, .ok b =>
    if h : a = b then isTrue (by rw [h]) else isFalse (fun hh => h (by cases hh; rfl))
  | .error a, .error b =>
    if h : a = b then isTrue (by rw [h]) else isFalse (fun hh => h (by cases hh; rfl))
  | .ok _, .error _ => isFalse (fun h => nomatch h)
  | .error _, .ok _ => isFalse (fun h => nomatch h)

/-- Result of a validity check: `.error e` models a raised exception,
`.ok b` a normal return of `b`. -/
abbrev VRes := Except ConstraintEx Bool

/-- `IsType._is_valid` with the instance's `data_type`/`exception_type`. -/
def isTypeCheck (dataType : PTy) (excKind : ExcKind) (v : PyVal) (strict : Bool) : VRes :=
  let ok := isinst v dataType
  if strict && !ok then .error (mkExc excKind v) else .ok ok

/-- `IsNumeric._is_valid`: the `IsType` check of the instance followed by the
boolean exclusion, which always raises `NumericValueError`. -/
def isNumericCheck (dataType : PTy) (excKind : ExcKind) (v : PyVal) (strict : Bool) : VRes := do
  let ok ← isTypeCheck dataType excKind v strict
  if ok && (typeOf v == .boolType) then
    if strict then .error (.numericValueError v) else .ok false
  else
    .ok ok

/-- `IsInteger._is_valid`: the inherited check with `data_type = int`,
`exception_type = IntegerValueError`, re-raising `NumericValueError` as
`IntegerValueError`. -/
def isIntegerCheck (v : PyVal) (strict : Bool) : VRes :=
  match isNumericCheck .intType .integer v strict with
  | .error (.numericValueError _) => .error (.integerValueError v)
  | r => r

/-- `IsGreaterThan._is_valid` given the check its `super()._is_valid` call
dispatches to (which depends on the MRO of the instance's class). -/
def isGreaterThanCheck (superCheck : PyVal → Bool → VRes) (minValue : ℚ)
    (v : PyVal) (strict : Bool) : VRes := do
  let ok ← superCheck v strict
  if ok then
    let ok2 := decide (toRat v > minValue)
    if strict && !ok2 then .error (.notGreaterThanValueError v minValue) else .ok ok2
  else
    .ok false

/-- `IsPositiveInteger._is_valid`: `IsInteger._is_valid` conjoined (with
Python's short-circuiting `and`) with `IsGreaterThan._is_valid`, whose
`super()` call resolves to `IsInteger` in the MRO of `IsPositiveInteger`. -/
def isPositiveIntegerCheck (v : PyVal) (strict : Bool) : VRes := do
  let ok ← isIntegerCheck v strict
  if ok then isGreaterThanCheck isIntegerCheck 0 v strict else .ok false

/-- `IsBoolean._is_valid`: accepts exactly the literal strings
`"true"`/`"false"`; note that it never consults `strict` and never raises. -/
def isBooleanCheck (v : PyVal) (_strict : Bool) : VRes :=
  .ok (match v with
    | .str s => s == "true" || s == "false"
    | _ => false)

/-- `IsRequired._is_valid`. -/
def isRequiredCheck (v : PyVal) (_strict : Bool) : VRes :=
  .ok (v != .none)

/-- `SelectionConstraint._is_valid`: wrap a scalar as a singleton list, then
require each item to occur in `options` by `==` at an index whose element
also matches the item's type exactly (mutual `isinstance`). -/
def selectionCheckItems (options : List PyVal) (strict : Bool) : List PyVal → VRes
  | [] => .ok true
  | item :: rest =>
    let isIn := options.any (fun o => pyEq item o)
    let ok := isIn && options.any (fun o =>
      pyEq item o && (isinst item (typeOf o) && isinst o (typeOf item)))
    if !ok then
      if strict then .error (.selectionValueError item options) else .ok false
    else
      selectionCheckItems options strict rest

/-- Dispatch `_is_valid` by constraint class. -/
def constraintCheck : CKind → PyVal → Bool → VRes
  | .isType dt ek, v, strict => isTypeCheck dt ek v strict
  | .isNumeric, v, strict => isNumericCheck .numberType .numeric v strict
  | .isInteger, v, strict => isIntegerCheck v strict
  | .isGreaterThan m, v, strict =>
    isGreaterThanCheck (isNumericCheck .numberType .numeric) m v strict
  | .isPositiveInteger, v, strict => isPositiveIntegerCheck v strict
  | .isBoolean, v, strict => isBooleanCheck v strict
  | .isRequired, v, strict => isRequiredCheck v strict
  | .isString, v, strict => isTypeCheck .strType .string v strict
  | .isDate, v, strict => do
    -- IsDate._is_valid: the IsType check plus the datetime exclusion
    let ok ← isTypeCheck .dateType .date v strict
    if ok && (typeOf v == .datetimeType) then
      if strict then .error (.dateValueError v) else .ok false
    else
      .ok ok
  | .isDateTime, v, strict => isTypeCheck .datetimeType .datetime v strict
  | .selection options, v, strict =>
    selectionCheckItems options strict (match v with
      | .list xs => xs.toList
      | x => [x])
  | .isList, v, strict => isTypeCheck .listType .list v strict

/-- `Constraint.is_valid` (template method): `None` is accepted when
`nullable`, rejected (raising `NullFieldException` in strict mode) otherwise,
and non-`None` values go to the subclass `_is_valid`.
`SelectionConstraint.is_valid` overrides it to first turn an empty list into
`None`. -/
def constraintIsValid (c : Constraint) (v : PyVal) (strict : Bool) : VRes :=
  let v := match c.kind with
    | .selection _ => if v == .list .nil then .none else v
    | _ => v
  if v != .none then constraintCheck c.kind v strict
  else if c.nullable then .ok true
  else if strict then .error .nullField
  else .ok false

/-- A `Validator`: its `_constraints` list and its `_is_required` flag. -/
structure Validator where
  constraints : List Constraint
  isRequiredFlag : Bool
deriving DecidableEq

/-- Python `constraint in self._constraints` (membership by `__eq__`). -/
def containsC (cs : List Constraint) (c : Constraint) : Bool :=
  cs.any (fun x => constraintBEq x c)

/-- Python `list.remove`: drop the first matching element, no-op here when
absent (the source only calls it guarded by a membership test or ignores the
miss through the surrounding logic modelled below). -/
def removeFirstC (cs : List Constraint) (c : Constraint) : List Constraint :=
  match cs with
  | [] => []
  | x :: rest => if constraintBEq x c then rest else x :: removeFirstC rest c

/-- `IsRequired()`: the constraint the `is_required` machinery adds, removes
and compares against; its constructor forces `nullable = False`. -/
def freshIsRequired : Constraint := ⟨.isRequired, false⟩

/-- The `Validator.is_required` setter: store the flag, force every contained
constraint's `nullable` to its negation, then add `IsRequired()` when required
and it is absent, or call `remove(IsRequired())` when not required and
`IsRequired()` is absent (sic - the source tests absence, not presence, in the
removal branch).  The nested `add`/`remove` cannot toggle the flag again
because it was just stored, so they are inlined as a plain append / first
removal. -/
def Validator.setRequired (v : Validator) (b : Bool) : Validator :=
  let cs := v.constraints.map (fun c => { c with nullable := !b })
  if b && !containsC cs freshIsRequired then
    { constraints := cs ++ [freshIsRequired], isRequiredFlag := b }
  else if !b && !containsC cs freshIsRequired then
    { constraints := removeFirstC cs freshIsRequired, isRequiredFlag := b }
  else
    { constraints := cs, isRequiredFlag := b }

/-- One iteration of the `Validator.add` loop: append the constraint unless
one equal to it is already contained, and remember whether an `IsRequired`
instance was appended. -/
def addStep (acc : List Constraint × Bool) (c : Constraint) : List Constraint × Bool :=
  if containsC acc.1 c then acc
  else (acc.1 ++ [c], acc.2 || (className c.kind == "IsRequired"))

/-- The loop of `Validator.add`: append each constraint not already contained
(membership via `__eq__`), and report whether an `IsRequired` instance was
appended. -/
def addAux (cs : List Constraint) (new : List Constraint) : List Constraint × Bool :=
  new.foldl addStep (cs, false)

/-- `Validator.add`: run the append loop, then set `is_required = True` if an
`IsRequired` constraint was added while the flag was off. -/
def Validator.addC (v : Validator) (new : List Constraint) : Validator :=
  let p := addAux v.constraints new
  let v1 : Validator := { v with constraints := p.1 }
  if p.2 && !v.isRequiredFlag then v1.setRequired true else v1

/-- `Validator.__init__(constraints, is_required)`: stores the flag, starts
from an empty list and delegates to `add` (never running the `is_required`
setter unless `add` toggles it). -/
def mkValidator (constraints : List Constraint) (isReq : Bool) : Validator :=
  Validator.addC ⟨[], isReq⟩ constraints

/-- `Validator.is_valid`: conjunction over the contained constraints in
order, short-circuiting on the first `False` and propagating the first raised
exception. -/
def validatorIsValid (v : Validator) (val : PyVal) (strict : Bool) : VRes :=
  go v.constraints
where
  go : List Constraint → VRes
    | [] => .ok true
    | c :: rest => do
      let ok ← constraintIsValid c val strict
      if ok then go rest else .ok false


/-! ### Basic lemmas about the constraint layer -/

/-- A constraint whose `nullable` flag is `True` never equals the fresh
`IsRequired()` used by the `is_required` setter (whose `nullable` is
`False`). -/
theorem constraintBEq_fresh_of_nullable (k : CKind) :
    constraintBEq ⟨k, true⟩ freshIsRequired = false := by
  cases k <;> rfl

/-- Only an `IsRequired` instance compares equal to `IsRequired()`. -/
theorem kind_of_constraintBEq_fresh (x : Constraint)
    (h : constraintBEq x freshIsRequired = true) : x.kind = .isRequired := by
  obtain ⟨k, nb⟩ := x
  cases k <;> first | rfl | exact (nomatch h)

/-- A class different from `IsRequired` has a different class name. -/
theorem className_ne_isRequired (k : CKind) (h : k ≠ .isRequired) :
    className k ≠ "IsRequired" := by
  cases k <;> first
    | exact absurd rfl h
    | (intro hh; simp [className] at hh)

/-- `Constraint.is_valid` on `None` with `nullable = False` raises
`NullFieldException` in strict mode. -/
theorem constraintIsValid_none_strict (k : CKind) :
    constraintIsValid ⟨k, false⟩ .none true = .error .nullField := by
  cases k <;> rfl

/-- `Constraint.is_valid` on `None` with `nullable = True` returns `True`. -/
theorem constraintIsValid_none_nullable (k : CKind) (strict : Bool) :
    constraintIsValid ⟨k, true⟩ .none strict = .ok true := by
  cases k <;> rfl

/-- If the first constraint raises, `Validator.is_valid` propagates. -/
theorem validatorIsValid_head_error (c : Constraint) (cs : List Constraint)
    (flag : Bool) (v : PyVal) (strict : Bool) (e : ConstraintEx)
    (h : constraintIsValid c v strict = .error e) :
    validatorIsValid ⟨c :: cs, flag⟩ v strict = .error e := by
  show validatorIsValid.go v strict (c :: cs) = .error e
  rw [validatorIsValid.go, h]
  rfl

/-- If every contained constraint accepts, `Validator.is_valid` returns
`True`. -/
theorem validatorIsValid_all_ok (cs : List Constraint) (flag : Bool)
    (v : PyVal) (strict : Bool)
    (h : ∀ c ∈ cs, constraintIsValid c v strict = .ok true) :
    validatorIsValid ⟨cs, flag⟩ v strict = .ok true := by
  show validatorIsValid.go v strict cs = .ok true
  induction cs with
  | nil => rfl
  | cons c rest ih =>
    rw [validatorIsValid.go, h c (List.mem_cons_self c rest)]
    exact ih (fun d hd => h d (List.mem_cons_of_mem c hd))

/-- `list.remove` is the identity when nothing compares equal. -/
theorem removeFirstC_of_not_mem (cs : List Constraint) (c : Constraint)
    (h : ∀ x ∈ cs, constraintBEq x c = false) : removeFirstC cs c = cs := by
  induction cs with
  | nil => rfl
  | cons x rest ih =>
    simp [removeFirstC, h x (List.mem_cons_self x rest)]
    exact ih (fun y hy => h y (List.mem_cons_of_mem x hy))

/-- The append loop of `Validator.add` never reports an `IsRequired` addition
when none of the added constraints is an `IsRequired`. -/
theorem foldl_addStep_flag (new : List Constraint)
    (h : ∀ c ∈ new, c.kind ≠ .isRequired) :
    ∀ (cs : List Constraint) (b : Bool), (new.foldl addStep (cs, b)).2 = b := by
  induction new with
  | nil => intro cs b; rfl
  | cons c rest ih =>
    intro cs b
    have hc : (className c.kind == "IsRequired") = false := by
      simpa using className_ne_isRequired c.kind (h c (List.mem_cons_self c rest))
    have hrest : ∀ d ∈ rest, d.kind ≠ .isRequired :=
      fun d hd => h d (List.mem_cons_of_mem c hd)
    rw [List.foldl_cons, addStep]
    by_cases hm : containsC cs c = true
    · simp only [hm, if_true]
      exact ih hrest cs b
    · simp only [hm, if_false, Bool.not_eq_true] at hm ⊢
      simp only [hm, Bool.false_eq_true, if_false, hc, Bool.or_false]
      exact ih hrest (cs ++ [c]) b

/-- The append loop of `Validator.add` only ever appends elements of the
added list. -/
theorem foldl_addStep_subset (new : List Constraint) :
    ∀ (cs : List Constraint) (b : Bool),
      ∀ c ∈ (new.foldl addStep (cs, b)).1, c ∈ cs ∨ c ∈ new := by
  induction new with
  | nil => intro cs b c hc; exact Or.inl hc
  | cons d rest ih =>
    intro cs b c hc
    rw [List.foldl_cons, addStep] at hc
    by_cases hm : containsC cs d = true
    · simp only [hm, if_true] at hc
      rcases ih cs b c hc with h1 | h1
      · exact Or.inl h1
      · exact Or.inr (List.mem_cons_of_mem d h1)
    · simp only [hm, Bool.false_eq_true, if_false] at hc
      rcases ih (cs ++ [d]) _ c hc with h1 | h1
      · rcases List.mem_append.mp h1 with h2 | h2
        · exact Or.inl h2
        · exact Or.inr (by simp [List.mem_singleton.mp h2])
      · exact Or.inr (List.mem_cons_of_mem d h1)

/-- `Validator.is_valid(None, strict=True)` raises `NullFieldException`
whenever the validator holds at least one non-nullable constraint in front
(here: all of them). -/
theorem validatorIsValid_none_strict_error (cs : List Constraint) (flag : Bool)
    (h1 : cs ≠ []) (h2 : ∀ c ∈ cs, c.nullable = false) :
    validatorIsValid ⟨cs, flag⟩ .none true = .error .nullField := by
  match cs, h1 with
  | ⟨k, nb⟩ :: rest, _ =>
    have hnb : nb = false := h2 ⟨k, nb⟩ (List.mem_cons_self _ _)
    subst hnb
    exact validatorIsValid_head_error _ _ _ _ _ _ (constraintIsValid_none_strict k)

/-- The `is_required` setter always stores the assigned flag. -/
theorem setRequired_flag (v : Validator) (b : Bool) :
    (v.setRequired b).isRequiredFlag = b := by
  simp only [Validator.setRequired]
  split
  · rfl
  · split <;> rfl

/-! ### Claim theorems: the constraint and validator layer -/

/-- C3: the claim says that in strict mode every violated constraint throws,
and in particular that `IsBoolean.is_valid(value, strict=True)` raises
`BooleanValueError` for every non-`None` value other than the strings
`"true"`/`"false"`.  The code of `IsBoolean._is_valid` never consults
`strict`: strict validation of such values returns `False` (the repository
has no `BooleanValueError` class at all, although its own test suite expects
one to be raised). -/
theorem c3_is_boolean_strict_never_raises :
    (∀ (v : PyVal) (s : Bool), constraintIsValid ⟨.isBoolean, true⟩ v s =
      .ok (match v with
        | .none => true
        | .str s2 => s2 == "true" || s2 == "false"
        | _ => false)) ∧
    constraintIsValid ⟨.isBoolean, true⟩ (.int 1) true = .ok false ∧
    constraintIsValid ⟨.isBoolean, true⟩ (.str "1") true = .ok false ∧
    constraintIsValid ⟨.isBoolean, true⟩ (.bool true) true = .ok false ∧
    constraintIsValid ⟨.isBoolean, true⟩ (.str "true") true = .ok true :=
  ⟨fun v _ => by cases v <;> rfl, by decide, by decide, by decide, by decide⟩

/-- C9 counterexample: the claim says `IsPositiveInteger().is_valid(-5,
strict=True)` raises `IntegerValueError`; it actually raises
`NotGreaterThanValueError` (-5 is a perfectly good integer, only the floor
check fails). -/
theorem c9_counterexample :
    constraintIsValid ⟨.isPositiveInteger, true⟩ (.int (-5)) true
        = .error (.notGreaterThanValueError (.int (-5)) 0) ∧
    constraintIsValid ⟨.isPositiveInteger, true⟩ (.int (-5)) true
        ≠ .error (.integerValueError (.int (-5))) := by decide

/-- The Python float literal `3.3` (only its being a non-integral float
matters to the checks below). -/
def threePointThree : ℚ := ⟨33, 10, by decide, by decide⟩

/-- C9 (amended): for a default `IsPositiveInteger`, `is_valid(0)` is `False`
and raises `NotGreaterThanValueError` strictly; `is_valid(1)` is `True`;
`is_valid(-5)` and `is_valid(3.3)` are `False` non-strictly; strictly, `3.3`
raises `IntegerValueError` while `-5` raises `NotGreaterThanValueError`. -/
theorem c9_positive_integer_cases :
    constraintIsValid ⟨.isPositiveInteger, true⟩ (.int 0) false = .ok false ∧
    constraintIsValid ⟨.isPositiveInteger, true⟩ (.int 0) true
        = .error (.notGreaterThanValueError (.int 0) 0) ∧
    constraintIsValid ⟨.isPositiveInteger, true⟩ (.int 1) false = .ok true ∧
    constraintIsValid ⟨.isPositiveInteger, true⟩ (.int (-5)) false = .ok false ∧
    constraintIsValid ⟨.isPositiveInteger, true⟩ (.float threePointThree) false
        = .ok false ∧
    constraintIsValid ⟨.isPositiveInteger, true⟩ (.float threePointThree) true
        = .error (.integerValueError (.float threePointThree)) ∧
    constraintIsValid ⟨.isPositiveInteger, true⟩ (.int (-5)) true
        = .error (.notGreaterThanValueError (.int (-5)) 0) := by decide

/-- C2 counterexample: the claim says assigning `is_required = False` removes
the `IsRequired` constraint.  Starting from `Validator([IsGreaterThan(10)])`,
assigning `True` and then `False` leaves the `IsRequired` constraint in the
collection (with its `nullable` flipped to `True`): the removal branch of the
setter tests for *absence* and, after the nullable flip, the contained
`IsRequired` no longer compares equal to a fresh `IsRequired()` anyway. -/
theorem c2_counterexample :
    (((mkValidator [⟨.isGreaterThan 10, true⟩] false).setRequired true).setRequired
          false).constraints
        = [⟨.isGreaterThan 10, true⟩, ⟨.isRequired, true⟩] ∧
    (((mkValidator [⟨.isGreaterThan 10, true⟩] false).setRequired true).setRequired
          false).constraints.any (fun c => c.kind == .isRequired) = true := by decide

/-- C2 (amended): for every `Validator`, assigning `is_required = True` adds
an `IsRequired` constraint (when none of equal shape is present) and sets
every contained constraint's `nullable` to `False`, so that
`is_valid(None, strict=True)` raises `NullFieldException`.  Assigning
`is_required = False` resets the flag and restores every contained
constraint's `nullable` to `True` — which lets `is_valid(None, strict=True)`
return `True` — but it never removes the `IsRequired` constraint: the
constraint kinds are kept exactly as they were. -/
theorem c2_is_required_setter (v : Validator) :
    ((v.setRequired true).isRequiredFlag = true ∧
      (∀ c ∈ (v.setRequired true).constraints, c.nullable = false) ∧
      (∃ c ∈ (v.setRequired true).constraints, c.kind = .isRequired) ∧
      validatorIsValid (v.setRequired true) .none true = .error .nullField) ∧
    ((v.setRequired false).isRequiredFlag = false ∧
      (∀ c ∈ (v.setRequired false).constraints, c.nullable = true) ∧
      (v.setRequired false).constraints.map Constraint.kind
          = v.constraints.map Constraint.kind ∧
      validatorIsValid (v.setRequired false) .none true = .ok true) := by
  constructor
  · -- is_required = True
    set cs2 := v.constraints.map (fun c => { c with nullable := !true }) with hcs2
    have hnul : ∀ c ∈ cs2, c.nullable = false := by
      intro c hc
      rw [hcs2] at hc
      obtain ⟨d, _, rfl⟩ := List.mem_map.mp hc
      rfl
    by_cases hmem : containsC cs2 freshIsRequired = true
    · have hne : cs2 ≠ [] := by
        intro hnil
        rw [hnil] at hmem
        exact absurd hmem (by decide)
      have hform : v.setRequired true = ⟨cs2, true⟩ := by
        unfold Validator.setRequired
        rw [← hcs2]
        simp [hmem]
      rw [hform]
      obtain ⟨x, hx, hbeq⟩ := List.any_eq_true.mp hmem
      refine ⟨rfl, hnul, ⟨x, hx, kind_of_constraintBEq_fresh x hbeq⟩, ?_⟩
      exact validatorIsValid_none_strict_error cs2 true hne hnul
    · have hform : v.setRequired true = ⟨cs2 ++ [freshIsRequired], true⟩ := by
        unfold Validator.setRequired
        rw [← hcs2]
        simp [hmem]
      rw [hform]
      have hnul2 : ∀ c ∈ cs2 ++ [freshIsRequired], c.nullable = false := by
        intro c hc
        rcases List.mem_append.mp hc with h1 | h1
        · exact hnul c h1
        · rw [List.mem_singleton.mp h1]; rfl
      refine ⟨rfl, hnul2, ⟨freshIsRequired, by simp, rfl⟩, ?_⟩
      exact validatorIsValid_none_strict_error _ true (by simp) hnul2
  · -- is_required = False
    set cs2 := v.constraints.map (fun c => { c with nullable := !false }) with hcs2
    have hnul : ∀ c ∈ cs2, c.nullable = true := by
      intro c hc
      rw [hcs2] at hc
      obtain ⟨d, _, rfl⟩ := List.mem_map.mp hc
      rfl
    have hbeqf : ∀ x ∈ cs2, constraintBEq x freshIsRequired = false := by
      intro x hx
      rw [hcs2] at hx
      obtain ⟨d, _, rfl⟩ := List.mem_map.mp hx
      exact constraintBEq_fresh_of_nullable d.kind
    have hmem : containsC cs2 freshIsRequired = false := by
      rw [containsC, List.any_eq_false]
      intro x hx
      simp [hbeqf x hx]
    have hform : v.setRequired false = ⟨cs2, false⟩ := by
      unfold Validator.setRequired
      rw [← hcs2]
      simp [hmem, removeFirstC_of_not_mem cs2 freshIsRequired hbeqf]
    rw [hform]
    refine ⟨rfl, hnul, ?_, ?_⟩
    · rw [hcs2, List.map_map]
      rfl
    · refine validatorIsValid_all_ok cs2 false .none true ?_
      intro c hc
      have := hnul c hc
      obtain ⟨k, nb⟩ := c
      cases nb
      · exact (nomatch this)
      · exact constraintIsValid_none_nullable k true

/-- C10: `Validator.__init__` stores `is_required` directly, bypassing the
setter: built with `is_required=True` and constraints containing no
`IsRequired`, the validator reports required, still contains no `IsRequired`
constraint, keeps only (unchanged) constraints from the given list, and —
when those constraints are nullable, the default — `is_valid(None,
strict=True)` returns `True` without raising `NullFieldException`. -/
theorem c10_constructor_bypasses_setter (cs : List Constraint)
    (hno : ∀ c ∈ cs, c.kind ≠ .isRequired) :
    (mkValidator cs true).isRequiredFlag = true ∧
    (∀ c ∈ (mkValidator cs true).constraints, c.kind ≠ .isRequired) ∧
    (∀ c ∈ (mkValidator cs true).constraints, c ∈ cs) ∧
    ((∀ c ∈ cs, c.nullable = true) →
      validatorIsValid (mkValidator cs true) .none true = .ok true) := by
  have hform : mkValidator cs true = ⟨(cs.foldl addStep ([], false)).1, true⟩ := by
    unfold mkValidator Validator.addC addAux
    simp
  have hsub : ∀ c ∈ (cs.foldl addStep ([], false)).1, c ∈ cs := by
    intro c hc
    rcases foldl_addStep_subset cs [] false c hc with h1 | h1
    · exact absurd h1 (List.not_mem_nil c)
    · exact h1
  rw [hform]
  refine ⟨rfl, fun c hc => hno c (hsub c hc), hsub, ?_⟩
  intro hnull
  refine validatorIsValid_all_ok _ true .none true ?_
  intro c hc
  have := hnull c (hsub c hc)
  obtain ⟨k, nb⟩ := c
  cases nb
  · exact (nomatch this)
  · exact constraintIsValid_none_nullable k true

/-- C10 witness: a concrete instantiation at `Validator(constraints=
[IsGreaterThan(10)], is_required=True)`. -/
theorem c10_witness :
    ((∀ c ∈ [(⟨.isGreaterThan 10, true⟩ : Constraint)], c.kind ≠ .isRequired) ∧
      (mkValidator [⟨.isGreaterThan 10, true⟩] true).isRequiredFlag = true ∧
      (∀ c ∈ (mkValidator [⟨.isGreaterThan 10, true⟩] true).constraints,
        c.kind ≠ .isRequired) ∧
      (∀ c ∈ (mkValidator [⟨.isGreaterThan 10, true⟩] true).constraints,
        c ∈ [(⟨.isGreaterThan 10, true⟩ : Constraint)]) ∧
      ((∀ c ∈ [(⟨.isGreaterThan 10, true⟩ : Constraint)], c.nullable = true) →
        validatorIsValid (mkValidator [⟨.isGreaterThan 10, true⟩] true) .none true
          = .ok true)) :=
  ⟨by decide, c10_constructor_bypasses_setter [⟨.isGreaterThan 10, true⟩] (by decide)⟩

/-! ### Claim C8: the selection constraint -/

/-- The mutual `isinstance` test of `SelectionConstraint._is_valid` holds
exactly when the two values have the same exact class. -/
theorem mutual_isinst_eq (a b : PyVal) :
    (isinst a (typeOf b) && isinst b (typeOf a)) = (typeOf a == typeOf b) := by
  cases a <;> cases b <;> rfl

/-- The inner `any` of the selection check holds exactly when some option is
equal by value and of the same exact type. -/
theorem selection_any_iff (options : List PyVal) (item : PyVal) :
    (options.any fun o =>
        pyEq item o && (isinst item (typeOf o) && isinst o (typeOf item))) = true ↔
      ∃ o ∈ options, pyEq item o = true ∧ typeOf item = typeOf o := by
  rw [List.any_eq_true]
  constructor
  · rintro ⟨o, ho, hf⟩
    rw [Bool.and_eq_true] at hf
    refine ⟨o, ho, hf.1, ?_⟩
    have := hf.2
    rw [mutual_isinst_eq] at this
    exact beq_iff_eq.mp this
  · rintro ⟨o, ho, h1, h2⟩
    refine ⟨o, ho, ?_⟩
    rw [Bool.and_eq_true, mutual_isinst_eq]
    exact ⟨h1, beq_iff_eq.mpr h2⟩

/-- The item loop of `SelectionConstraint._is_valid` (non-strict) accepts
exactly when every item has an equal, exactly-typed match in `options`. -/
theorem selectionCheckItems_ok_iff (options : List PyVal) (items : List PyVal) :
    selectionCheckItems options false items = .ok true ↔
      ∀ item ∈ items,
        ∃ o ∈ options, pyEq item o = true ∧ typeOf item = typeOf o := by
  induction items with
  | nil => simp [selectionCheckItems]
  | cons item rest ih =>
    by_cases hok : (options.any fun o =>
        pyEq item o && (isinst item (typeOf o) && isinst o (typeOf item))) = true
    · have hIn : (options.any fun o => pyEq item o) = true := by
        rw [List.any_eq_true] at hok ⊢
        obtain ⟨o, ho, hf⟩ := hok
        rw [Bool.and_eq_true] at hf
        exact ⟨o, ho, hf.1⟩
      rw [selectionCheckItems]
      simp only [hIn, hok, Bool.and_self, Bool.not_true, Bool.false_eq_true,
        if_false]
      rw [ih]
      constructor
      · intro h it hit
        rcases List.mem_cons.mp hit with h1 | h1
        · rw [h1]; exact (selection_any_iff options item).mp hok
        · exact h it h1
      · intro h it hit
        exact h it (List.mem_cons_of_mem item hit)
    · have hokf : (options.any fun o =>
          pyEq item o && (isinst item (typeOf o) && isinst o (typeOf item))) = false :=
        by simpa using hok
      rw [selectionCheckItems]
      simp only [hokf, Bool.and_false, Bool.not_false, if_true]
      constructor
      · intro h
        exact absurd h (by simp)
      · intro h
        exact absurd ((selection_any_iff options item).mpr
          (h item (List.mem_cons_self item rest))) hok

/-- C8: for a `SelectionConstraint` and a non-`None`, non-empty-list value,
`is_valid` accepts exactly when every element of the value (the value wrapped
as a singleton when it is a scalar) occurs in `options` both equal by `==`
and with exactly the same type (so `1` does not match `True`); an empty list
is treated exactly like `None`. -/
theorem c8_selection_constraint (options : List PyVal) (nullable : Bool)
    (v : PyVal) (hne : v ≠ .none) (hnel : v ≠ .list .nil) :
    (constraintIsValid ⟨.selection options, nullable⟩ v false = .ok true ↔
      ∀ item ∈ (match v with | .list xs => xs.toList | x => [x]),
        ∃ o ∈ options, pyEq item o = true ∧ typeOf item = typeOf o) ∧
    (∀ strict, constraintIsValid ⟨.selection options, nullable⟩ (.list .nil) strict
        = constraintIsValid ⟨.selection options, nullable⟩ .none strict) := by
  constructor
  · have hv1 : (v == PyVal.list .nil) = false := beq_eq_false_iff_ne.mpr hnel
    have hv2 : (v != PyVal.none) = true := bne_iff_ne.mpr hne
    simp only [constraintIsValid, hv1, Bool.false_eq_true, if_false, hv2,
      if_true, constraintCheck]
    exact selectionCheckItems_ok_iff options _
  · intro strict
    rfl

/-- C8 witness: `SelectionConstraint(options=[0, True, "x"]).is_valid(1)` is
`False` even though `1 == True`, because no option is both equal and of the
exact type `int`. -/
theorem c8_witness :
    ((PyVal.int 1 ≠ .none) ∧ (PyVal.int 1 ≠ .list .nil)) ∧
    ((constraintIsValid ⟨.selection [.int 0, .bool true, .str "x"], true⟩
          (.int 1) false = .ok true ↔
        ∀ item ∈ [PyVal.int 1],
          ∃ o ∈ [PyVal.int 0, PyVal.bool true, PyVal.str "x"],
            pyEq item o = true ∧ typeOf item = typeOf o) ∧
      (∀ strict,
        constraintIsValid ⟨.selection [.int 0, .bool true, .str "x"], true⟩
            (.list .nil) strict
          = constraintIsValid ⟨.selection [.int 0, .bool true, .str "x"], true⟩
              .none strict)) :=
  ⟨⟨by decide, by decide⟩,
    c8_selection_constraint [.int 0, .bool true, .str "x"] true (.int 1)
      (by decide) (by decide)⟩

/-! ### The field layer: `Field`, `InterfaceField`, `InterfaceFieldSet`
(`api/interfaces/fields/__init__.py`) -/

/-- The concrete `Field` subclasses.  `SelectField`/`MultiSelectField` carry
their `options` list (passed to their internal `SelectionConstraint`). -/
inductive FType where
  | plain
  | positiveInteger
  | modelId
  | stringField
  | booleanField
  | dateField
  | datetimeField
  | select (options : List PyVal)
  | multiSelect (options : List PyVal)
deriving DecidableEq

/-- The fixed constraint list each `Field` subclass constructor passes to its
`Validator` (with the constraints' default `nullable = True`). -/
def baseConstraints : FType → List Constraint
  | .plain => []
  | .positiveInteger => [⟨.isPositiveInteger, true⟩]
  | .modelId => [⟨.isPositiveInteger, true⟩]
  | .stringField => [⟨.isString, true⟩]
  | .booleanField => [⟨.isBoolean, true⟩]
  | .dateField => [⟨.isDate, true⟩]
  | .datetimeField => [⟨.isDateTime, true⟩]
  | .select options => [⟨.selection options, true⟩]
  | .multiSelect options => [⟨.selection options, true⟩, ⟨.isList, true⟩]

/-- A `Field`: name, bound value, concrete subclass, and validator. -/
structure Field where
  name : String
  value : PyVal
  fieldType : FType
  validator : Validator
deriving DecidableEq

/-- Construct a field the way the subclass constructors do: build the
validator from the subclass's fixed constraints (`Validator(constraints=...)`
with the default `is_required=False`), then run `Field.__init__`, whose
`self.is_required = is_required` assignment invokes the `Validator.is_required`
setter. -/
def mkField (ft : FType) (name : String) (value : PyVal) (isReq : Bool) : Field :=
  { name := name, value := value, fieldType := ft,
    validator := (mkValidator (baseConstraints ft) false).setRequired isReq }

/-- An `InterfaceField` wraps a base `Field` (owning no value of its own). -/
structure InterfaceField where
  base : Field
deriving DecidableEq

/-- `InterfaceField.name`: the base field's name with the
`"_interface_field"` suffix appended. -/
def InterfaceField.ifaceName (f : InterfaceField) : String :=
  f.base.name ++ "_interface_field"

/-- Exceptions of the surrounding Python runtime that the embedded code can
raise besides the constraint exceptions. -/
inductive PyErr where
  | constraintErr (e : ConstraintEx)
  | typeError
  | keyError (key : String)
  | attributeError
  | valueError
deriving DecidableEq

/-- The characters of the `"_interface_field"` suffix. -/
def suffixChars : List Char := "_interface_field".data

/-- `str.replace("_interface_field", "")` on a character list: scan left to
right, removing each (non-overlapping) occurrence of the pattern.  The `fuel`
argument makes the recursion structural (each step consumes at least one
character, so `fuel = length` always suffices — see `stripOccAux_fuel`). -/
def stripOccAux : Nat → List Char → List Char
  | 0, l => l
  | _, [] => []
  | fuel + 1, c :: rest =>
    if suffixChars.isPrefixOf (c :: rest) then stripOccAux fuel (rest.drop 15)
    else c :: stripOccAux fuel rest

/-- `s.replace("_interface_field", "")`. -/
def pyStripSuffix (s : String) : String :=
  String.mk (stripOccAux s.data.length s.data)

/-- Whether the `"_interface_field"` pattern occurs anywhere in the list. -/
def containsSuffix : List Char → Bool
  | [] => false
  | c :: rest => suffixChars.isPrefixOf (c :: rest) || containsSuffix rest

/-- `InterfaceField.bind(value)`: validate strictly against the wrapped
field's validator (propagating any constraint exception); on `True`,
construct `field_type(name=name, value=value)` where `name` is the interface
name with the suffix replaced away — a call that raises `TypeError` for
`SelectField`/`MultiSelectField`, whose constructors require an `options`
argument that `bind` does not pass; on `False` (possible because
`IsBoolean` never raises), fall through and return `None`. -/
def InterfaceField.bindValue (f : InterfaceField) (v : PyVal) :
    Except PyErr (Option Field) :=
  match validatorIsValid f.base.validator v true with
  | .error e => .error (.constraintErr e)
  | .ok true =>
    let name := pyStripSuffix f.ifaceName
    match f.base.fieldType with
    | .select _ => .error .typeError
    | .multiSelect _ => .error .typeError
    | ft => .ok (some (mkField ft name v false))
  | .ok false => .ok none

/-- The `InterfaceValidationError` raised by `InterfaceFieldSet.validate`:
the offending field's base name, the offending value, and the underlying
constraint exception (`str(e)` is modelled by the structured exception). -/
structure InterfaceValidationError where
  field : String
  value : PyVal
  message : ConstraintEx
deriving DecidableEq

/-- `bindings[key] if key in bindings.keys() else None`. -/
def lookupBinding (key : String) (bindings : List (String × PyVal)) : PyVal :=
  match bindings.find? (fun kv => kv.1 == key) with
  | some kv => kv.2
  | Option.none => .none

/-- `InterfaceFieldSet.validate(bindings)` over the interface fields in the
set's insertion order (`self._fields.values()`): resolve each field's base
name in `bindings` (`None` when absent), validate strictly — wrapping a
raised `ConstraintException` in an `InterfaceValidationError` — and keep the
binding in the result exactly when validation returned `True` and the value
is not `None`. -/
def validateSet : List InterfaceField → List (String × PyVal) →
    Except InterfaceValidationError (List (String × PyVal))
  | [], _ => .ok []
  | f :: rest, bindings =>
    let key := f.base.name
    let value := lookupBinding key bindings
    match validatorIsValid f.base.validator value true with
    | .error e => .error ⟨key, value, e⟩
    | .ok ok =>
      match validateSet rest bindings with
      | .error e2 => .error e2
      | .ok tail => .ok (if ok && value != .none then (key, value) :: tail else tail)

/-! ### Claim C4: `InterfaceField.bind` -/

/-- The suffix pattern has no internal period: no proper nonempty suffix of
`"_interface_field"` restarts the pattern.  (This is why an occurrence of the
pattern can never straddle the boundary between a clean base name and the
appended suffix.) -/
theorem suffix_border_free :
    ∀ n, 1 ≤ n → n < 16 → suffixChars.drop n ≠ suffixChars.take (16 - n) := by
  decide

/-- Emptying the input empties `stripOccAux` regardless of fuel. -/
theorem stripOccAux_nil (fuel : Nat) : stripOccAux fuel [] = [] := by
  cases fuel <;> rfl

/-- If the pattern begins a list, the list contains the pattern. -/
theorem containsSuffix_of_isPrefixOf (l : List Char)
    (h : suffixChars.isPrefixOf l = true) : containsSuffix l = true := by
  cases l with
  | nil => exact absurd h (by decide)
  | cons c rest => simp [containsSuffix, h]

/-- A clean nonempty base name followed by the suffix does not *start* with
the suffix: an occurrence at the front would either lie inside the base name
(contradicting cleanliness) or straddle the boundary (contradicting
`suffix_border_free`). -/
theorem not_isPrefixOf_append (name : List Char) (hne : name ≠ [])
    (hclean : containsSuffix name = false) :
    suffixChars.isPrefixOf (name ++ suffixChars) = false := by
  by_contra hcon
  have hpre : suffixChars <+: (name ++ suffixChars) := by
    rw [← List.isPrefixOf_iff_prefix]
    simpa using hcon
  have hlen : suffixChars.length = 16 := by decide
  have htake : suffixChars = (name ++ suffixChars).take 16 := by
    have := List.prefix_iff_eq_take.mp hpre
    rwa [hlen] at this
  rw [List.take_append_eq_append_take] at htake
  by_cases hge : 16 ≤ name.length
  · have hname16 : (name.take 16).length = 16 := by
      rw [List.length_take]
      omega
    have hrest : 16 - name.length = 0 := by omega
    rw [hrest, List.take_zero, List.append_nil] at htake
    have : suffixChars.isPrefixOf name = true := by
      rw [List.isPrefixOf_iff_prefix, htake]
      exact List.take_prefix 16 name
    rw [containsSuffix_of_isPrefixOf name this] at hclean
    exact absurd hclean (by decide)
  · have hn1 : 1 ≤ name.length := by
      cases name with
      | nil => exact absurd rfl hne
      | cons a b => simp
    have hnl : name.length < 16 := by omega
    have htakename : name.take 16 = name := List.take_of_length_le (by omega)
    rw [htakename] at htake
    have hdrop : suffixChars.drop name.length = suffixChars.take (16 - name.length) := by
      have := congrArg (List.drop name.length) htake
      rwa [List.drop_append_of_le_length (le_refl name.length),
        List.drop_length, List.nil_append] at this
    exact suffix_border_free name.length hn1 hnl hdrop

/-- With enough fuel, stripping the suffix occurrences from a clean base name
followed by one copy of the suffix recovers exactly the base name. -/
theorem stripOccAux_append (name : List Char) :
    ∀ fuel, (name ++ suffixChars).length ≤ fuel →
      containsSuffix name = false →
      stripOccAux fuel (name ++ suffixChars) = name := by
  induction name with
  | nil =>
    intro fuel hf _
    simp only [List.nil_append] at hf ⊢
    have h16 : (16 : Nat) ≤ fuel := by
      have : suffixChars.length = 16 := by decide
      omega
    obtain ⟨f, rfl⟩ : ∃ f, fuel = f + 1 := ⟨fuel - 1, by omega⟩
    have hstep : stripOccAux (f + 1) suffixChars = stripOccAux f [] := rfl
    rw [hstep, stripOccAux_nil]
  | cons c rest ih =>
    intro fuel hf hclean
    have hcond : suffixChars.isPrefixOf ((c :: rest) ++ suffixChars) = false :=
      not_isPrefixOf_append (c :: rest) (by simp) hclean
    have hcleanrest : containsSuffix rest = false := by
      rw [containsSuffix, Bool.or_eq_false_iff] at hclean
      exact hclean.2
    obtain ⟨f, rfl⟩ : ∃ f, fuel = f + 1 := by
      refine ⟨fuel - 1, ?_⟩
      simp only [List.cons_append, List.length_cons] at hf
      omega
    rw [List.cons_append, stripOccAux, ← List.cons_append, hcond]
    simp only [Bool.false_eq_true, if_false]
    congr 1
    refine ih f ?_ hcleanrest
    simp only [List.cons_append, List.length_cons] at hf
    simpa using Nat.le_of_succ_le_succ hf

/-- Stripping the `"_interface_field"` suffix from an interface-field name
recovers the base name, provided the base name itself does not contain the
pattern (true of every field name in the repository). -/
theorem pyStripSuffix_append (name : String)
    (hclean : containsSuffix name.data = false) :
    pyStripSuffix (name ++ "_interface_field") = name := by
  unfold pyStripSuffix
  have hdata : (name ++ "_interface_field").data = name.data ++ suffixChars := by
    rfl
  rw [hdata, stripOccAux_append name.data _ (le_refl _) hclean]

/-- C4 counterexample: for an `InterfaceField` wrapping a `SelectField`, a
*valid* value makes `bind` raise `TypeError` instead of returning a new
field: `bind` calls `field_type(name=name, value=value)` and `SelectField`'s
constructor requires an `options` argument that is not passed. -/
theorem c4_counterexample :
    validatorIsValid (mkField (.select [.str "a"]) "level" .none false).validator
        (.str "a") true = .ok true ∧
    InterfaceField.bindValue ⟨mkField (.select [.str "a"]) "level" .none false⟩
        (.str "a") = .error .typeError ∧
    ∀ fld, InterfaceField.bindValue ⟨mkField (.select [.str "a"]) "level" .none false⟩
        (.str "a") ≠ .ok (some fld) := by
  refine ⟨by decide, by decide, ?_⟩
  intro fld h
  rw [show InterfaceField.bindValue ⟨mkField (.select [.str "a"]) "level" .none false⟩
      (.str "a") = .error .typeError from by decide] at h
  exact Except.noConfusion h

/-- C4 (amended): `bind(value)` validates strictly against the wrapped
field's validator.  A raised constraint exception propagates unchanged.  When
validation returns `True`, for every wrapped subtype except
`SelectField`/`MultiSelectField` the result is a new `Field` of the wrapped
subtype whose name is the interface name with the `"_interface_field"`
suffix stripped (the base name) and whose value is the bound value; for
`SelectField`/`MultiSelectField` the constructor call raises `TypeError`.
When strict validation returns `False` without raising (boolean fields),
`bind` falls through and returns `None` rather than raising. -/
theorem c4_bind_behavior (f : InterfaceField) (v : PyVal)
    (hclean : containsSuffix f.base.name.data = false) :
    (∀ e, validatorIsValid f.base.validator v true = .error e →
      f.bindValue v = .error (.constraintErr e)) ∧
    (validatorIsValid f.base.validator v true = .ok false →
      f.bindValue v = .ok none) ∧
    (validatorIsValid f.base.validator v true = .ok true →
      ((∀ opts, f.base.fieldType ≠ .select opts ∧ f.base.fieldType ≠ .multiSelect opts) →
        f.bindValue v = .ok (some (mkField f.base.fieldType f.base.name v false))) ∧
      (∀ opts, (f.base.fieldType = .select opts ∨ f.base.fieldType = .multiSelect opts) →
        f.bindValue v = .error .typeError)) := by
  have hname : pyStripSuffix f.ifaceName = f.base.name :=
    pyStripSuffix_append f.base.name hclean
  refine ⟨?_, ?_, ?_⟩
  · intro e he
    rw [InterfaceField.bindValue, he]
  · intro hok
    rw [InterfaceField.bindValue, hok]
  · intro hok
    constructor
    · intro hnot
      rw [InterfaceField.bindValue, hok]
      simp only [hname]
      cases hft : f.base.fieldType with
      | select opts => exact absurd hft (hnot opts).1
      | multiSelect opts => exact absurd hft (hnot opts).2
      | _ => rfl
    · intro opts hsel
      rw [InterfaceField.bindValue, hok]
      rcases hsel with h1 | h1 <;> rw [h1]

/-- C4 witness: binding `7` through an interface field wrapping
`ModelIdField("id")` yields a fresh `ModelIdField("id", 7)`. -/
theorem c4_witness :
    (containsSuffix ("id" : String).data = false) ∧
    ((∀ e, validatorIsValid (mkField .modelId "id" .none false).validator
          (.int 7) true = .error e →
        InterfaceField.bindValue ⟨mkField .modelId "id" .none false⟩ (.int 7)
          = .error (.constraintErr e)) ∧
      (validatorIsValid (mkField .modelId "id" .none false).validator
          (.int 7) true = .ok false →
        InterfaceField.bindValue ⟨mkField .modelId "id" .none false⟩ (.int 7)
          = .ok none) ∧
      (validatorIsValid (mkField .modelId "id" .none false).validator
          (.int 7) true = .ok true →
        ((∀ opts, (mkField .modelId "id" .none false).fieldType ≠ .select opts ∧
            (mkField .modelId "id" .none false).fieldType ≠ .multiSelect opts) →
          InterfaceField.bindValue ⟨mkField .modelId "id" .none false⟩ (.int 7)
            = .ok (some (mkField (mkField .modelId "id" .none false).fieldType
                "id" (.int 7) false))) ∧
        (∀ opts, ((mkField .modelId "id" .none false).fieldType = .select opts ∨
            (mkField .modelId "id" .none false).fieldType = .multiSelect opts) →
          InterfaceField.bindValue ⟨mkField .modelId "id" .none false⟩ (.int 7)
            = .error .typeError))) :=
  ⟨by decide, c4_bind_behavior ⟨mkField .modelId "id" .none false⟩ (.int 7) (by decide)⟩

/-! ### Claim C1: `InterfaceFieldSet.validate` -/

/-- C1 counterexample: for an interface field wrapping `BooleanField("b")`
and bindings `{"b": 1}`, strict validation *fails* (returns `False`, because
`IsBoolean` never raises) yet `validate` raises no
`InterfaceValidationError`: it silently drops the offending binding and
returns an empty dict. -/
theorem c1_counterexample :
    validatorIsValid (mkField .booleanField "b" .none false).validator
        (.int 1) true = .ok false ∧
    validateSet [⟨mkField .booleanField "b" .none false⟩] [("b", .int 1)]
        = .ok [] := by decide

/-- C1 (amended): `validate(bindings)` resolves each contained field's value
as `bindings[base_name]` (`None` if absent).  If every field's strict
validation returns `True`, the result contains exactly the base-name/value
pairs whose resolved value is not `None`, in field order.  If some field's
strict validation raises a constraint exception — and every field before it
returned normally — `validate` raises an `InterfaceValidationError` carrying
that field's base name, the offending value, and the underlying exception.
(A field whose strict validation returns `False` without raising — possible
only for boolean fields — is silently dropped, without an error.) -/
theorem c1_validate_behavior (fields : List InterfaceField)
    (bindings : List (String × PyVal)) :
    ((∀ f ∈ fields, validatorIsValid f.base.validator
        (lookupBinding f.base.name bindings) true = .ok true) →
      validateSet fields bindings = .ok (fields.filterMap (fun f =>
        let v := lookupBinding f.base.name bindings
        if v != .none then some (f.base.name, v) else Option.none))) ∧
    (∀ (pre : List InterfaceField) (f : InterfaceField)
        (post : List InterfaceField) (e : ConstraintEx),
      fields = pre ++ f :: post →
      (∀ g ∈ pre, ∃ b, validatorIsValid g.base.validator
        (lookupBinding g.base.name bindings) true = .ok b) →
      validatorIsValid f.base.validator (lookupBinding f.base.name bindings) true
        = .error e →
      validateSet fields bindings
        = .error ⟨f.base.name, lookupBinding f.base.name bindings, e⟩) := by
  constructor
  · intro h
    induction fields with
    | nil => rfl
    | cons f rest ih =>
      have hf := h f (List.mem_cons_self f rest)
      have htail := ih (fun g hg => h g (List.mem_cons_of_mem f hg))
      simp only [validateSet, hf, htail, List.filterMap_cons]
      by_cases hv : (lookupBinding f.base.name bindings != PyVal.none) = true
      · simp [hv]
      · have hv2 : (lookupBinding f.base.name bindings != PyVal.none) = false := by
          simpa using hv
        simp [hv2]
  · intro pre
    induction pre generalizing fields with
    | nil =>
      intro f post e hsplit _ herr
      subst hsplit
      simp only [validateSet, herr]
    | cons g pre2 ih =>
      intro f post e hsplit hpre herr
      subst hsplit
      obtain ⟨b, hb⟩ := hpre g (List.mem_cons_self g pre2)
      have htail := ih (pre2 ++ f :: post) f post e rfl
        (fun g2 hg2 => hpre g2 (List.mem_cons_of_mem g hg2)) herr
      simp only [List.cons_append, validateSet, hb, List.append_eq, htail]

/-- C1 witness: for an `InterfaceFieldSet` holding an interface field
wrapping `ModelIdField("id")`, `validate({"id": "bad"})` raises an
`InterfaceValidationError` naming field `"id"`, carrying the offending value
and the underlying `IntegerValueError`. -/
theorem c1_witness :
    ([⟨mkField .modelId "id" .none false⟩]
        = ([] : List InterfaceField) ++ ⟨mkField .modelId "id" .none false⟩ :: []) ∧
    (validatorIsValid (mkField .modelId "id" .none false).validator
        (lookupBinding "id" [("id", .str "bad")]) true
      = .error (.integerValueError (.str "bad"))) ∧
    validateSet [⟨mkField .modelId "id" .none false⟩] [("id", .str "bad")]
      = .error ⟨"id", lookupBinding "id" [("id", .str "bad")],
          .integerValueError (.str "bad")⟩ :=
  ⟨rfl, by decide,
    (c1_validate_behavior [⟨mkField .modelId "id" .none false⟩]
        [("id", .str "bad")]).2 [] ⟨mkField .modelId "id" .none false⟩ []
      (.integerValueError (.str "bad")) rfl (by simp) (by decide)⟩

/-! ### Claim C6: `Formatter` date and datetime round trips
(`models/utilities.py`).  `strftime`/`strptime` with the fixed format
strings `"%Y-%m-%d"`, `"%Y-%m-%dT%H:%M:%S.%f%z"` and
`"%Y-%m-%dT%H:%M:%S%z"` are modelled character by character, following
CPython's `_strptime` directive patterns (`%Y` = exactly four digits,
`%m`/`%d`/`%H`/`%M`/`%S` = one or two digits within the directive's range,
`%f` = one to six digits, `%z` = sign, two hour digits, optional colon, two
minute digits — with the empty output `%z` produces for a naive datetime
matching nothing on input). -/

/-- Is the year a Gregorian leap year (`calendar.isleap`). -/
def isLeapYear (y : Nat) : Bool :=
  y % 4 == 0 && (y % 100 != 0 || y % 400 == 0)

/-- Days in a month, as enforced by the `datetime` constructors. -/
def daysInMonth (y m : Nat) : Nat :=
  if m = 2 then (if isLeapYear y then 29 else 28)
  else if m = 4 ∨ m = 6 ∨ m = 9 ∨ m = 11 then 30
  else 31

/-- The invariant `datetime.date` maintains (`MINYEAR = 1`,
`MAXYEAR = 9999`). -/
def ValidDate (d : PyDate) : Prop :=
  1 ≤ d.year ∧ d.year ≤ 9999 ∧ 1 ≤ d.month ∧ d.month ≤ 12 ∧
    1 ≤ d.day ∧ d.day ≤ daysInMonth d.year d.month

instance (d : PyDate) : Decidable (ValidDate d) := by
  unfold ValidDate
  infer_instance

/-- A `tzinfo` UTC offset is a whole number of minutes strictly between
-24h and +24h. -/
def offsetInRange : Option Int → Prop
  | Option.none => True
  | some o => -1439 ≤ o ∧ o ≤ 1439

instance : (x : Option Int) → Decidable (offsetInRange x)
  | Option.none => isTrue trivial
  | some _ => inferInstanceAs (Decidable (_ ∧ _))

/-- The invariant `datetime.datetime` maintains (`%z` renders the offset as
`±HHMM`). -/
def ValidDateTime (t : PyDateTime) : Prop :=
  ValidDate ⟨t.year, t.month, t.day⟩ ∧ t.hour ≤ 23 ∧ t.minute ≤ 59 ∧
    t.second ≤ 59 ∧ t.microsecond ≤ 999999 ∧ offsetInRange t.offset

/-- The character of a decimal digit. -/
def digitChar (n : Nat) : Char := Char.ofNat (48 + n)

/-- Two-digit zero-padded rendering (`%m`, `%d`, `%H`, `%M`, `%S`, and the
offset components of `%z`). -/
def pad2 (n : Nat) : List Char := [digitChar (n / 10), digitChar (n % 10)]

/-- Four-digit zero-padded rendering (`%Y`). -/
def pad4 (n : Nat) : List Char :=
  [digitChar (n / 1000), digitChar (n / 100 % 10), digitChar (n / 10 % 10),
    digitChar (n % 10)]

/-- Six-digit zero-padded rendering (`%f`). -/
def pad6 (n : Nat) : List Char :=
  [digitChar (n / 100000), digitChar (n / 10000 % 10), digitChar (n / 1000 % 10),
    digitChar (n / 100 % 10), digitChar (n / 10 % 10), digitChar (n % 10)]

/-- `%z` output: empty for a naive datetime, else sign and `HHMM`. -/
def offsetChars : Option Int → List Char
  | Option.none => []
  | some o =>
    (if o < 0 then '-' else '+') :: (pad2 (o.natAbs / 60) ++ pad2 (o.natAbs % 60))

/-- `Formatter.date_to_str` on a date value:
`date.strftime(value, "%Y-%m-%d")`. -/
def date_to_str (d : PyDate) : String :=
  String.mk (pad4 d.year ++ '-' :: (pad2 d.month ++ '-' :: pad2 d.day))

/-- `Formatter.datetime_to_str` on a datetime value:
`datetime.strftime(value, "%Y-%m-%dT%H:%M:%S.%f%z")`. -/
def datetime_to_str (t : PyDateTime) : String :=
  String.mk (pad4 t.year ++ '-' :: (pad2 t.month ++ '-' :: (pad2 t.day ++
    'T' :: (pad2 t.hour ++ ':' :: (pad2 t.minute ++ ':' :: (pad2 t.second ++
      '.' :: (pad6 t.microsecond ++ offsetChars t.offset)))))))

/-- A decimal digit character. -/
def parseDigit (c : Char) : Option Nat :=
  if 48 ≤ c.toNat ∧ c.toNat ≤ 57 then some (c.toNat - 48) else Option.none

/-- Exactly four digits (`%Y`). -/
def parse4 : List Char → Option (Nat × List Char)
  | c1 :: c2 :: c3 :: c4 :: rest =>
    match parseDigit c1, parseDigit c2, parseDigit c3, parseDigit c4 with
    | some d1, some d2, some d3, some d4 =>
      some (1000 * d1 + 100 * d2 + 10 * d3 + d4, rest)
    | _, _, _, _ => Option.none
  | _ => Option.none

/-- A two-digit value within `[lo, hi]`, falling back to one digit within
`[slo, shi]` (the two-branch shape of the `%m`/`%d`/`%H`/`%M`/`%S` regex
alternations). -/
def parse2or1 (lo hi slo shi : Nat) : List Char → Option (Nat × List Char)
  | c1 :: c2 :: rest =>
    match parseDigit c1, parseDigit c2 with
    | some d1, some d2 =>
      if lo ≤ 10 * d1 + d2 ∧ 10 * d1 + d2 ≤ hi then some (10 * d1 + d2, rest)
      else if slo ≤ d1 ∧ d1 ≤ shi then some (d1, c2 :: rest)
      else Option.none
    | some d1, Option.none =>
      if slo ≤ d1 ∧ d1 ≤ shi then some (d1, c2 :: rest) else Option.none
    | _, _ => Option.none
  | [c1] =>
    match parseDigit c1 with
    | some d1 => if slo ≤ d1 ∧ d1 ≤ shi then some (d1, []) else Option.none
    | Option.none => Option.none
  | [] => Option.none

/-- Expect a literal character. -/
def expectChar (c : Char) : List Char → Option (List Char)
  | x :: rest => if x = c then some rest else Option.none
  | [] => Option.none

/-- Up to `n` leading digits, greedily. -/
def parseDigitsUpTo : Nat → List Char → List Nat × List Char
  | 0, l => ([], l)
  | n + 1, l =>
    match l with
    | c :: rest =>
      match parseDigit c with
      | some d =>
        let p := parseDigitsUpTo n rest
        (d :: p.1, p.2)
      | Option.none => ([], l)
    | [] => ([], l)

/-- Decimal value of a digit list. -/
def digitsValue (ds : List Nat) : Nat := ds.foldl (fun a d => 10 * a + d) 0

/-- `%f`: one to six digits, scaled to microseconds by right-padding. -/
def parseMicro (l : List Char) : Option (Nat × List Char) :=
  let p := parseDigitsUpTo 6 l
  if p.1 = [] then Option.none
  else some (digitsValue p.1 * 10 ^ (6 - p.1.length), p.2)

/-- `%z`: sign, two hour digits, optional colon, two minute digits (minutes
below 60); `strptime` then builds a `timezone`, which requires the offset to
be strictly less than 24 hours.  A naive datetime's empty offset matches
nothing: `%z` requires the sign. -/
def parseOffset : List Char → Option (Int × List Char)
  | sign :: rest =>
    if sign = '+' ∨ sign = '-' then
      match rest with
      | h1 :: h2 :: rest2 =>
        match parseDigit h1, parseDigit h2 with
        | some d1, some d2 =>
          let rest3 := if rest2.head? = some ':' then rest2.tail else rest2
          match rest3 with
          | m1 :: m2 :: rest4 =>
            match parseDigit m1, parseDigit m2 with
            | some e1, some e2 =>
              if e1 ≤ 5 then
                let total : Nat := 60 * (10 * d1 + d2) + (10 * e1 + e2)
                if total < 1440 then
                  some (if sign = '-' then -(total : Int) else (total : Int), rest4)
                else Option.none
              else Option.none
            | _, _ => Option.none
          | _ => Option.none
        | _, _ => Option.none
      | _ => Option.none
    else Option.none
  | [] => Option.none

/-- `strptime(value, "%Y-%m-%d").date()`: parse the full string, then let the
`datetime` constructor validate the day against the month length and the
year against `MINYEAR`. -/
def strToDateChars (l : List Char) : Option PyDate := do
  let p1 ← parse4 l
  let r2 ← expectChar '-' p1.2
  let p2 ← parse2or1 1 12 1 9 r2
  let r4 ← expectChar '-' p2.2
  let p3 ← parse2or1 1 31 1 9 r4
  if p3.2 = [] ∧ 1 ≤ p1.1 ∧ p3.1 ≤ daysInMonth p1.1 p2.1 then
    some ⟨p1.1, p2.1, p3.1⟩
  else Option.none

/-- `Formatter.str_to_date` on a string (raising `ValueError` when the string
is not in the `"%Y-%m-%d"` format; the date and `None` pass-through branches
of the source are not involved in the round-trip claim). -/
def str_to_date (s : String) : Except PyErr PyDate :=
  match strToDateChars s.data with
  | some d => .ok d
  | Option.none => .error .valueError

/-- Parse `"%Y-%m-%dT%H:%M:%S"` followed by the given tail parser. -/
def strToDatetimeCommon (l : List Char)
    (tail : List Char → Option (Nat × Option Int)) : Option PyDateTime := do
  let p1 ← parse4 l
  let r2 ← expectChar '-' p1.2
  let p2 ← parse2or1 1 12 1 9 r2
  let r4 ← expectChar '-' p2.2
  let p3 ← parse2or1 1 31 1 9 r4
  let r6 ← expectChar 'T' p3.2
  let p4 ← parse2or1 0 23 0 9 r6
  let r8 ← expectChar ':' p4.2
  let p5 ← parse2or1 0 59 0 9 r8
  let r10 ← expectChar ':' p5.2
  let p6 ← parse2or1 0 61 0 9 r10
  let p7 ← tail p6.2
  if 1 ≤ p1.1 ∧ p3.1 ≤ daysInMonth p1.1 p2.1 ∧ p6.1 ≤ 59 then
    some ⟨p1.1, p2.1, p3.1, p4.1, p5.1, p6.1, p7.1, p7.2⟩
  else Option.none

/-- The `".%f%z"` tail of the first format tried by `str_to_datetime`. -/
def tailMicroOffset (l : List Char) : Option (Nat × Option Int) := do
  let r ← expectChar '.' l
  let p ← parseMicro r
  let q ← parseOffset p.2
  if q.2 = [] then some (p.1, some q.1) else Option.none

/-- The `"%z"` tail of the second format (no microseconds). -/
def tailOffsetOnly (l : List Char) : Option (Nat × Option Int) := do
  let q ← parseOffset l
  if q.2 = [] then some (0, some q.1) else Option.none

/-- `Formatter.str_to_datetime` on a string: try
`"%Y-%m-%dT%H:%M:%S.%f%z"`, then `"%Y-%m-%dT%H:%M:%S%z"`, else raise
`ValueError`.  Both formats require `%z` to match, which the empty offset of
a formatted naive datetime never does. -/
def str_to_datetime (s : String) : Except PyErr PyDateTime :=
  match strToDatetimeCommon s.data tailMicroOffset with
  | some t => .ok t
  | Option.none =>
    match strToDatetimeCommon s.data tailOffsetOnly with
    | some t => .ok t
    | Option.none => .error .valueError

/-- Digit characters parse back to their value. -/
theorem parseDigit_digitChar : ∀ n, n < 10 → parseDigit (digitChar n) = some n := by
  decide

/-- `%Y` round trip: four zero-padded digits parse back to the year. -/
theorem parse4_pad4 (y : Nat) (hy : y ≤ 9999) (rest : List Char) :
    parse4 (pad4 y ++ rest) = some (y, rest) := by
  have h1 := parseDigit_digitChar (y / 1000) (by omega)
  have h2 := parseDigit_digitChar (y / 100 % 10) (by omega)
  have h3 := parseDigit_digitChar (y / 10 % 10) (by omega)
  have h4 := parseDigit_digitChar (y % 10) (by omega)
  simp only [pad4, List.cons_append, List.nil_append, parse4, h1, h2, h3, h4]
  rw [show 1000 * (y / 1000) + 100 * (y / 100 % 10) + 10 * (y / 10 % 10) + y % 10 = y
    from by omega]

/-- Two-digit round trip for the in-range directives. -/
theorem parse2or1_pad2 (lo hi slo shi v : Nat) (hv : v ≤ 99) (hlo : lo ≤ v)
    (hhi : v ≤ hi) (rest : List Char) :
    parse2or1 lo hi slo shi (pad2 v ++ rest) = some (v, rest) := by
  have h1 := parseDigit_digitChar (v / 10) (by omega)
  have h2 := parseDigit_digitChar (v % 10) (by omega)
  simp only [pad2, List.cons_append, List.nil_append, parse2or1, h1, h2]
  rw [show 10 * (v / 10) + v % 10 = v from by omega]
  simp [hlo, hhi]

/-- Literal separators are consumed. -/
theorem expectChar_cons (c : Char) (rest : List Char) :
    expectChar c (c :: rest) = some rest := by
  simp [expectChar]

/-- `%f` reads exactly the six zero-padded digits. -/
theorem parseDigitsUpTo_pad6 (u : Nat) (hu : u ≤ 999999) (rest : List Char) :
    parseDigitsUpTo 6 (pad6 u ++ rest)
      = ([u / 100000, u / 10000 % 10, u / 1000 % 10, u / 100 % 10, u / 10 % 10,
          u % 10], rest) := by
  have h1 := parseDigit_digitChar (u / 100000) (by omega)
  have h2 := parseDigit_digitChar (u / 10000 % 10) (by omega)
  have h3 := parseDigit_digitChar (u / 1000 % 10) (by omega)
  have h4 := parseDigit_digitChar (u / 100 % 10) (by omega)
  have h5 := parseDigit_digitChar (u / 10 % 10) (by omega)
  have h6 := parseDigit_digitChar (u % 10) (by omega)
  simp [pad6, parseDigitsUpTo, h1, h2, h3, h4, h5, h6]

/-- `%f` round trip on the canonical six-digit rendering. -/
theorem parseMicro_pad6 (u : Nat) (hu : u ≤ 999999) (rest : List Char) :
    parseMicro (pad6 u ++ rest) = some (u, rest) := by
  rw [parseMicro, parseDigitsUpTo_pad6 u hu rest]
  simp only [digitsValue, List.foldl]
  rw [if_neg (by simp)]
  simp only [List.length_cons, List.length_nil]
  rw [show (6 : Nat) - 6 = 0 from rfl, pow_zero, Nat.mul_one]
  rw [show 10 * (10 * (10 * (10 * (10 * (10 * 0 + u / 100000) + u / 10000 % 10)
      + u / 1000 % 10) + u / 100 % 10) + u / 10 % 10) + u % 10 = u from by omega]

/-- Digit characters are never the optional colon of `%z`. -/
theorem digitChar_ne_colon : ∀ n, n < 10 → digitChar n ≠ ':' := by decide

/-- `%z` round trip on the canonical `±HHMM` rendering of an in-range
offset. -/
theorem parseOffset_offsetChars (o : Int) (h1 : -1439 ≤ o) (h2 : o ≤ 1439)
    (rest : List Char) :
    parseOffset (offsetChars (some o) ++ rest) = some (o, rest) := by
  have ha : o.natAbs ≤ 1439 := by omega
  have hd1 := parseDigit_digitChar (o.natAbs / 60 / 10) (by omega)
  have hd2 := parseDigit_digitChar (o.natAbs / 60 % 10) (by omega)
  have hd3 := parseDigit_digitChar (o.natAbs % 60 / 10) (by omega)
  have hd4 := parseDigit_digitChar (o.natAbs % 60 % 10) (by omega)
  have hcolon : digitChar (o.natAbs % 60 / 10) ≠ ':' :=
    digitChar_ne_colon _ (by omega)
  have harith : 10 * (o.natAbs / 60 / 10) + o.natAbs / 60 % 10 = o.natAbs / 60 := by
    omega
  have harith2 : 10 * (o.natAbs % 60 / 10) + o.natAbs % 60 % 10 = o.natAbs % 60 := by
    omega
  have hmin5 : o.natAbs % 60 / 10 ≤ 5 := by omega
  have htotal : 60 * (o.natAbs / 60) + o.natAbs % 60 = o.natAbs := by omega
  by_cases hneg : o < 0
  · simp only [offsetChars, if_pos hneg, pad2, List.cons_append, List.nil_append,
      parseOffset, hd1, hd2]
    simp only [or_true, true_or, if_true]
    rw [if_neg (by simp [hcolon])]
    simp only [hd3, hd4]
    rw [harith2, if_pos hmin5, harith, htotal,
      if_pos (show o.natAbs < 1440 by omega)]
    simp only [if_true, Option.some.injEq, Prod.mk.injEq, and_true]
    omega
  · simp only [offsetChars, if_neg hneg, pad2, List.cons_append, List.nil_append,
      parseOffset, hd1, hd2]
    simp only [or_true, true_or, if_true]
    rw [if_neg (by simp [hcolon])]
    simp only [hd3, hd4]
    rw [harith2, if_pos hmin5, harith, htotal,
      if_pos (show o.natAbs < 1440 by omega)]
    rw [if_neg (show ¬(('+' : Char) = '-') by decide)]
    simp only [Option.some.injEq, Prod.mk.injEq, and_true]
    omega

instance (t : PyDateTime) : Decidable (ValidDateTime t) := by
  unfold ValidDateTime
  infer_instance

/-- Months never exceed 31 days. -/
theorem daysInMonth_le (y m : Nat) : daysInMonth y m ≤ 31 := by
  unfold daysInMonth
  split
  · split <;> omega
  · split <;> omega

set_option maxHeartbeats 1600000 in
/-- `str_to_date` inverts `date_to_str` on every valid date. -/
theorem str_to_date_roundtrip (d : PyDate) (h : ValidDate d) :
    str_to_date (date_to_str d) = .ok d := by
  obtain ⟨h1, h2, h3, h4, h5, h6⟩ := h
  have hday31 : d.day ≤ 31 := le_trans h6 (daysInMonth_le d.year d.month)
  have hchars : (date_to_str d).data
      = pad4 d.year ++ '-' :: (pad2 d.month ++ '-' :: (pad2 d.day ++ [])) := rfl
  rw [str_to_date, hchars]
  have hlast : parse2or1 1 31 1 9 (pad2 d.day) = some (d.day, []) := by
    simpa using parse2or1_pad2 1 31 1 9 d.day (by omega) h5 hday31 []
  have hcore : strToDateChars
      (pad4 d.year ++ '-' :: (pad2 d.month ++ '-' :: (pad2 d.day ++ []))) = some d := by
    simp [strToDateChars, parse4_pad4 d.year (by omega), expectChar_cons,
      parse2or1_pad2 1 12 1 9 d.month (by omega) h3 h4, hlast, h1, h6]
  rw [hcore]

set_option maxHeartbeats 3200000 in
/-- `str_to_datetime` inverts `datetime_to_str` on every valid
timezone-aware datetime. -/
theorem str_to_datetime_roundtrip (t : PyDateTime) (h : ValidDateTime t)
    (ho : t.offset ≠ Option.none) :
    str_to_datetime (datetime_to_str t) = .ok t := by
  obtain ⟨⟨ha1, ha2, ha3, ha4, ha5, ha6⟩, hh, hmin, hs, hu, hoo⟩ := h
  have h1 : 1 ≤ t.year := ha1
  have h2 : t.year ≤ 9999 := ha2
  have h3 : 1 ≤ t.month := ha3
  have h4 : t.month ≤ 12 := ha4
  have h5 : 1 ≤ t.day := ha5
  have h6 : t.day ≤ daysInMonth t.year t.month := ha6
  obtain ⟨o, hoeq⟩ : ∃ o, t.offset = some o := by
    cases hx : t.offset with
    | none => exact absurd hx ho
    | some o => exact ⟨o, rfl⟩
  rw [hoeq] at hoo
  obtain ⟨ho1, ho2⟩ : -1439 ≤ o ∧ o ≤ 1439 := hoo
  have hday31 : t.day ≤ 31 := le_trans h6 (daysInMonth_le t.year t.month)
  have hchars : (datetime_to_str t).data
      = pad4 t.year ++ '-' :: (pad2 t.month ++ '-' :: (pad2 t.day ++
        'T' :: (pad2 t.hour ++ ':' :: (pad2 t.minute ++ ':' :: (pad2 t.second ++
          '.' :: (pad6 t.microsecond ++ (offsetChars (some o) ++ []))))))) := by
    rw [datetime_to_str, hoeq]
    rfl
  have hcore : strToDatetimeCommon
      (pad4 t.year ++ '-' :: (pad2 t.month ++ '-' :: (pad2 t.day ++
        'T' :: (pad2 t.hour ++ ':' :: (pad2 t.minute ++ ':' :: (pad2 t.second ++
          '.' :: (pad6 t.microsecond ++ (offsetChars (some o) ++ []))))))))
      tailMicroOffset = some t := by
    simp only [strToDatetimeCommon, Option.bind_eq_bind,
      parse4_pad4 t.year (by omega), Option.some_bind, expectChar_cons,
      parse2or1_pad2 1 12 1 9 t.month (by omega) h3 h4,
      parse2or1_pad2 1 31 1 9 t.day (by omega) h5 hday31,
      parse2or1_pad2 0 23 0 9 t.hour (by omega) (by omega) hh,
      parse2or1_pad2 0 59 0 9 t.minute (by omega) (by omega) hmin,
      parse2or1_pad2 0 61 0 9 t.second (by omega) (by omega) (by omega),
      tailMicroOffset, expectChar_cons, parseMicro_pad6 t.microsecond hu,
      parseOffset_offsetChars o ho1 ho2 []]
    simp only [if_true, Option.some_bind]
    rw [if_pos (show 1 ≤ t.year ∧ t.day ≤ daysInMonth t.year t.month ∧
      t.second ≤ 59 from ⟨h1, h6, hs⟩)]
    rw [← hoeq]
  rw [str_to_datetime, hchars, hcore]

/-- C6 counterexample: a naive datetime breaks the claimed datetime round
trip.  `datetime_to_str` formats it with an *empty* `%z` field, and
`str_to_datetime` — both of whose accepted formats require an offset —
then raises `ValueError` instead of returning the datetime. -/
theorem c6_counterexample :
    datetime_to_str ⟨2020, 1, 1, 0, 0, 0, 0, Option.none⟩
        = "2020-01-01T00:00:00.000000" ∧
    str_to_datetime "2020-01-01T00:00:00.000000" = .error .valueError ∧
    str_to_datetime (datetime_to_str ⟨2020, 1, 1, 0, 0, 0, 0, Option.none⟩)
        ≠ .ok ⟨2020, 1, 1, 0, 0, 0, 0, Option.none⟩ := by
  refine ⟨by decide, by decide, ?_⟩
  intro h
  rw [show str_to_datetime (datetime_to_str ⟨2020, 1, 1, 0, 0, 0, 0, Option.none⟩)
      = .error .valueError from by decide] at h
  exact Except.noConfusion h

/-- C6 (amended): `Formatter.str_to_date(Formatter.date_to_str(d)) == d` for
every valid date `d` (canonical `YYYY-MM-DD` form), and
`Formatter.str_to_datetime(Formatter.datetime_to_str(t)) == t` for every
valid *timezone-aware* datetime `t` (canonical
`YYYY-MM-DDTHH:MM:SS.ffffff±HHMM` form, microseconds and offset included).
For a naive datetime the formatted string carries no offset and re-parsing
raises `ValueError` (see the counterexample). -/
theorem c6_formatter_roundtrip :
    (∀ d : PyDate, ValidDate d → str_to_date (date_to_str d) = .ok d) ∧
    (∀ t : PyDateTime, ValidDateTime t → t.offset ≠ Option.none →
      str_to_datetime (datetime_to_str t) = .ok t) :=
  ⟨str_to_date_roundtrip, str_to_datetime_roundtrip⟩

/-- C6 witness: concrete round trips through the canonical forms. -/
theorem c6_witness :
    (ValidDate ⟨2021, 2, 28⟩ ∧
      str_to_date (date_to_str ⟨2021, 2, 28⟩) = .ok ⟨2021, 2, 28⟩) ∧
    (ValidDateTime ⟨2021, 3, 7, 14, 5, 9, 123456, some 330⟩ ∧
      (⟨2021, 3, 7, 14, 5, 9, 123456, some 330⟩ : PyDateTime).offset
          ≠ Option.none ∧
      str_to_datetime (datetime_to_str ⟨2021, 3, 7, 14, 5, 9, 123456, some 330⟩)
          = .ok ⟨2021, 3, 7, 14, 5, 9, 123456, some 330⟩) :=
  ⟨⟨by decide, c6_formatter_roundtrip.1 ⟨2021, 2, 28⟩ (by decide)⟩,
    ⟨by decide, by decide,
      c6_formatter_roundtrip.2 ⟨2021, 3, 7, 14, 5, 9, 123456, some 330⟩
        (by decide) (by decide)⟩⟩

/-! ### Claim C5: the `JSONModel` mapper (`models/__init__.py`)

`to_dict` reflects over `vars(self)` (here: the `attrs` of an `.obj` value),
filters out class-name-mangled attributes, strips leading underscores from
the storage names, and converts list elements that have a `to_dict` method
(model objects) into dicts.  `from_dict` constructs `cls()` and assigns every
key of the input that names an attribute of the instance through its typed
setter.  A class is described by a `ModelClass` record: the `vars()` of a
default instance, the settable property names, and each property's setter
coercion, which is one of the four patterns occurring in the repository's
`Model` subclasses (plain storage, `Formatter.str_to_date`,
`Formatter.str_to_datetime`, and `[] if value is None else value`). -/

/-- The name-mangling prefix `'_' + cls.__name__ + '__'`. -/
def manglePref (cls : String) : String := "_" ++ cls ++ "__"

/-- String prefix test on the character lists. -/
def strHasPref (p s : String) : Bool := p.data.isPrefixOf s.data

/-- `key.lstrip("_")`. -/
def lstripUnder (k : String) : String :=
  String.mk (k.data.dropWhile (fun c => c = '_'))

mutual

/-- `JSONModel.to_dict`: drop attributes carrying the class's mangle prefix,
strip leading underscores from the rest, and flatten list values. -/
def to_dict (cls : String) : PyDict → PyDict
  | .nil => .nil
  | .cons k v rest =>
    if strHasPref (manglePref cls) k then to_dict cls rest
    else .cons (lstripUnder k) (flattenValue v) (to_dict cls rest)

/-- The list branch of `to_dict`: a list value is rebuilt with every element
that has a `to_dict` method converted; other values pass through. -/
def flattenValue : PyVal → PyVal
  | .list items => .list (flattenItems items)
  | v => v

/-- Convert the model-object elements of a list to dicts. -/
def flattenItems : PyList → PyList
  | .nil => .nil
  | .cons item rest =>
    .cons (match item with
      | .obj c a => .dict (to_dict c a)
      | other => other) (flattenItems rest)

end

/-- The setter-coercion patterns of the repository's `Model` subclasses. -/
inductive CoerceKind where
  | plain
  | strToDate
  | strToDatetime
  | noneToEmptyList
deriving DecidableEq

/-- Run a property setter's coercion.  `str_to_date`/`str_to_datetime` pass
`None` and already-typed values through (a `datetime` is an instance of
`date`), parse strings, and raise `ValueError` otherwise; the list setters
replace `None` with `[]`. -/
def applyCoerce : CoerceKind → PyVal → Except PyErr PyVal
  | .plain, v => .ok v
  | .strToDate, v =>
    match v with
    | .none => .ok .none
    | .date d => .ok (.date d)
    | .datetime dt => .ok (.datetime dt)
    | .str s => (str_to_date s).map (fun d => .date d)
    | _ => .error .valueError
  | .strToDatetime, v =>
    match v with
    | .none => .ok .none
    | .datetime dt => .ok (.datetime dt)
    | .str s => (str_to_datetime s).map (fun t => .datetime t)
    | _ => .error .valueError
  | .noneToEmptyList, v => .ok (if v == .none then .list .nil else v)

/-- The reflection data of one `Model` subclass. -/
structure ModelClass where
  name : String
  defaultAttrs : PyDict
  settable : List String
  setterKind : String → CoerceKind

/-- Assignment into `vars`: update in place when the storage key exists,
append otherwise (Python dict semantics). -/
def setStorage : PyDict → String → PyVal → PyDict
  | .nil, k, v => .cons k v .nil
  | .cons k2 w rest, k, v =>
    if k2 == k then .cons k2 v rest else .cons k2 w (setStorage rest k v)

/-- The loop of `from_dict`: for each key of the input dict that names a
settable attribute, run the property setter (which may raise from its
coercion) and store the result under the single-underscore storage name;
other keys are silently ignored. -/
def fromDictGo (C : ModelClass) : PyDict → PyDict → Except PyErr PyDict
  | inst, .nil => .ok inst
  | inst, .cons k v rest =>
    if C.settable.contains k then
      match applyCoerce (C.setterKind k) v with
      | .error e => .error e
      | .ok v2 => fromDictGo C (setStorage inst ("_" ++ k) v2) rest
    else fromDictGo C inst rest

/-- `JSONModel.from_dict`: build `cls()` and assign the matching keys. -/
def from_dict (C : ModelClass) (data : PyDict) : Except PyErr PyDict :=
  fromDictGo C C.defaultAttrs data

/-- The storage-name pattern of the repository's model attributes: a single
leading underscore followed by the property name (which does not itself
start with an underscore). -/
def storageKeyBase (k : String) : Option String :=
  match k.data with
  | '_' :: c :: rest => if c = '_' then Option.none else some (String.mk (c :: rest))
  | _ => Option.none

/-- One storage key of a conforming instance: single-underscore pattern,
settable property name, and not caught by the mangle filter. -/
def keyOkB (C : ModelClass) (k : String) : Bool :=
  match storageKeyBase k with
  | some base => C.settable.contains base && !(strHasPref (manglePref C.name) k)
  | Option.none => false

/-- Each attribute of a conforming instance: an acceptable storage key whose
(flattened) value is a fixed point of its setter's coercion — true of any
value that was itself stored through the setter. -/
def entriesOkB (C : ModelClass) : PyDict → Bool
  | .nil => true
  | .cons k v rest =>
    keyOkB C k &&
    (match storageKeyBase k with
      | some base =>
        applyCoerce (C.setterKind base) (flattenValue v) == .ok (flattenValue v)
      | Option.none => false) &&
    entriesOkB C rest

/-- An instance `obj cls attrs` is a conforming instance of the class `C`
describes: right class, the same storage keys (in construction order) as a
default instance, no duplicate keys, and setter-stored attribute values. -/
def conformsB (C : ModelClass) (cls : String) (attrs : PyDict) : Bool :=
  (cls == C.name) && (decide (attrs.keys = C.defaultAttrs.keys)) &&
    (decide attrs.keys.Nodup) && entriesOkB C attrs

/-- The shape `to_dict` produces on mangle-free attributes: strip each
storage name, flatten each value. -/
def stripFlattenDict : PyDict → PyDict
  | .nil => .nil
  | .cons k v r => .cons (lstripUnder k) (flattenValue v) (stripFlattenDict r)

/-- Flatten the values of a dict, keeping the keys. -/
def flattenOnly : PyDict → PyDict
  | .nil => .nil
  | .cons k v r => .cons k (flattenValue v) (flattenOnly r)

/-- A storage key of the single-underscore pattern is the underscore plus
its base, and stripping recovers the base. -/
theorem storageKeyBase_props (k base : String)
    (h : storageKeyBase k = some base) :
    ("_" ++ base = k) ∧ lstripUnder k = base := by
  obtain ⟨kd⟩ := k
  unfold storageKeyBase at h
  split at h
  · next c rest heq =>
    split at h
    · exact absurd h (by simp)
    · next hc =>
      have hbase : base = String.mk (c :: rest) := by
        simpa using h.symm
      have hkd : kd = '_' :: c :: rest := heq
      subst hbase hkd
      constructor
      · rfl
      · simp [lstripUnder, List.dropWhile, hc]
  · exact absurd h (by simp)

/-- `to_dict` on mangle-free attributes strips and flattens every entry. -/
theorem to_dict_clean (cls : String) :
    (attrs : PyDict) → (∀ k ∈ attrs.keys, strHasPref (manglePref cls) k = false) →
      to_dict cls attrs = stripFlattenDict attrs
  | .nil, _ => rfl
  | .cons k v rest, h => by
    have hk := h k (List.mem_cons_self k rest.keys)
    rw [to_dict, stripFlattenDict]
    simp only [hk, Bool.false_eq_true, if_false]
    rw [to_dict_clean cls rest (fun k2 hk2 => h k2 (List.mem_cons_of_mem k hk2))]

/-- Flattening a list's items is idempotent: converted items are dicts,
which have no `to_dict` of their own. -/
theorem flattenItems_idem : (items : PyList) →
    flattenItems (flattenItems items) = flattenItems items
  | .nil => rfl
  | .cons item rest => by
    cases item <;> simp only [flattenItems, flattenItems_idem rest]

/-- `to_dict`'s value conversion is idempotent. -/
theorem flattenValue_idem (v : PyVal) :
    flattenValue (flattenValue v) = flattenValue v := by
  cases v <;> simp [flattenValue, flattenItems_idem]

/-- Flattening values keeps the keys. -/
theorem flattenOnly_keys : (d : PyDict) → (flattenOnly d).keys = d.keys
  | .nil => rfl
  | .cons k v r => by rw [flattenOnly, PyDict.keys, PyDict.keys, flattenOnly_keys r]

/-- Stripping after a value flattening is the same as stripping directly. -/
theorem stripFlatten_flattenOnly : (d : PyDict) →
    stripFlattenDict (flattenOnly d) = stripFlattenDict d
  | .nil => rfl
  | .cons k v r => by
    rw [flattenOnly, stripFlattenDict, stripFlattenDict,
      stripFlatten_flattenOnly r, flattenValue_idem]

/-- Keys of entries are keys of the dict. -/
theorem mem_keys_of_mem_toList : (d : PyDict) →
    ∀ kv ∈ d.toList, kv.1 ∈ d.keys
  | .nil => by intro kv hkv; exact absurd hkv (List.not_mem_nil kv)
  | .cons k v r => by
    intro kv hkv
    rcases List.mem_cons.mp hkv with h1 | h1
    · rw [h1]; exact List.mem_cons_self _ _
    · exact List.mem_cons_of_mem _ (mem_keys_of_mem_toList r kv h1)

/-- Every key of the dict is the key of some entry. -/
theorem mem_toList_of_mem_keys : (d : PyDict) →
    ∀ k ∈ d.keys, ∃ v, (k, v) ∈ d.toList
  | .nil => by intro k hk; exact absurd hk (List.not_mem_nil k)
  | .cons k2 v r => by
    intro k hk
    rcases List.mem_cons.mp hk with h1 | h1
    · exact ⟨v, by rw [h1]; exact List.mem_cons_self _ _⟩
    · obtain ⟨w, hw⟩ := mem_toList_of_mem_keys r k h1
      exact ⟨w, List.mem_cons_of_mem _ hw⟩

/-- `entriesOkB` certifies every entry's storage key. -/
theorem entriesOkB_keyOk (C : ModelClass) : (d : PyDict) →
    entriesOkB C d = true → ∀ kv ∈ d.toList, keyOkB C kv.1 = true
  | .nil, _ => by intro kv hkv; exact absurd hkv (List.not_mem_nil kv)
  | .cons k v r, h => by
    rw [entriesOkB, Bool.and_assoc, Bool.and_eq_true] at h
    obtain ⟨hk1, h2⟩ := h
    rw [Bool.and_eq_true] at h2
    intro kv hkv
    rcases List.mem_cons.mp hkv with h1 | h1
    · rw [h1]; exact hk1
    · exact entriesOkB_keyOk C r h2.2 kv h1

/-- Entries of the stripped dict come from entries of the original. -/
theorem stripFlatten_mem : (d : PyDict) →
    ∀ kv ∈ (stripFlattenDict d).toList,
      ∃ kv2 ∈ d.toList, kv.1 = lstripUnder kv2.1
  | .nil => by intro kv hkv; exact absurd hkv (List.not_mem_nil kv)
  | .cons k v r => by
    intro kv hkv
    rw [stripFlattenDict] at hkv
    rcases List.mem_cons.mp hkv with h1 | h1
    · exact ⟨(k, v), List.mem_cons_self _ _, by rw [h1]⟩
    · obtain ⟨kv2, hkv2, heq⟩ := stripFlatten_mem r kv h1
      exact ⟨kv2, List.mem_cons_of_mem _ hkv2, heq⟩

/-- Assigning keys that differ from the head storage name floats past it. -/
theorem fromDictGo_skip (C : ModelClass) : (data : PyDict) →
    ∀ (inst2 : PyDict) (k : String) (v0 : PyVal),
      (∀ kv ∈ data.toList, C.settable.contains kv.1 = true → ("_" ++ kv.1) ≠ k) →
      fromDictGo C (.cons k v0 inst2) data
        = Except.map (fun d2 => PyDict.cons k v0 d2) (fromDictGo C inst2 data)
  | .nil => by intro inst2 k v0 _; rfl
  | .cons kd vd rest => by
    intro inst2 k v0 hk
    have hkrest : ∀ kv ∈ rest.toList,
        C.settable.contains kv.1 = true → ("_" ++ kv.1) ≠ k :=
      fun kv hkv => hk kv (List.mem_cons_of_mem _ hkv)
    by_cases hc : C.settable.contains kd = true
    · have hne : ("_" ++ kd) ≠ k := hk (kd, vd) (List.mem_cons_self _ _) hc
      cases hco : applyCoerce (C.setterKind kd) vd with
      | error e =>
        rw [fromDictGo, fromDictGo]
        simp only [hc, if_true, hco]
        rfl
      | ok v2 =>
        have hbeq : (k == ("_" ++ kd)) = false := beq_eq_false_iff_ne.mpr (Ne.symm hne)
        have hset : setStorage (.cons k v0 inst2) ("_" ++ kd) v2
            = .cons k v0 (setStorage inst2 ("_" ++ kd) v2) := by
          rw [setStorage, hbeq]
          simp
        rw [fromDictGo, fromDictGo]
        simp only [hc, if_true, hco, hset]
        exact fromDictGo_skip C rest (setStorage inst2 ("_" ++ kd) v2) k v0 hkrest
    · have hc2 : C.settable.contains kd = false := by simpa using hc
      rw [fromDictGo, fromDictGo]
      simp only [hc2, Bool.false_eq_true, if_false]
      exact fromDictGo_skip C rest inst2 k v0 hkrest

/-- Feeding the `to_dict` output of a conforming instance back through the
assignment loop reproduces the instance with flattened values. -/
theorem fromDictGo_roundtrip (C : ModelClass) : (attrs : PyDict) →
    ∀ (inst : PyDict),
      inst.keys = attrs.keys →
      attrs.keys.Nodup →
      entriesOkB C attrs = true →
      fromDictGo C inst (stripFlattenDict attrs) = .ok (flattenOnly attrs)
  | .nil => by
    intro inst hkeys _ _
    cases inst with
    | nil => rfl
    | cons k w r => exact absurd hkeys (by simp [PyDict.keys])
  | .cons k v rest => by
    intro inst hkeys hnodup hok
    cases inst with
    | nil => exact absurd hkeys (by simp [PyDict.keys])
    | cons kI w rI =>
      rw [PyDict.keys, PyDict.keys, List.cons.injEq] at hkeys
      obtain ⟨hkI, hrI⟩ := hkeys
      rw [entriesOkB, Bool.and_assoc, Bool.and_eq_true] at hok
      obtain ⟨hkeyok, hrest⟩ := hok
      rw [Bool.and_eq_true] at hrest
      obtain ⟨hfix, hrest⟩ := hrest
      obtain ⟨base, hbase⟩ : ∃ base, storageKeyBase k = some base := by
        unfold keyOkB at hkeyok
        split at hkeyok
        · next base hb => exact ⟨base, hb⟩
        · exact absurd hkeyok (by simp)
      obtain ⟨hunders, hstrip⟩ := storageKeyBase_props k base hbase
      have hcontains : C.settable.contains base = true := by
        unfold keyOkB at hkeyok
        rw [hbase, Bool.and_eq_true] at hkeyok
        exact hkeyok.1
      have hcoerce : applyCoerce (C.setterKind base) (flattenValue v)
          = .ok (flattenValue v) := by
        rw [hbase] at hfix
        exact eq_of_beq hfix
      rw [PyDict.keys, List.nodup_cons] at hnodup
      obtain ⟨hknotin, hnodup2⟩ := hnodup
      rw [stripFlattenDict, fromDictGo, hstrip]
      simp only [hcontains, if_true, hcoerce]
      have hset : setStorage (.cons kI w rI) ("_" ++ base) (flattenValue v)
          = .cons kI (flattenValue v) rI := by
        have hbeqI : (kI == ("_" ++ base)) = true := by
          rw [hkI, hunders]
          exact beq_self_eq_true k
        rw [setStorage, if_pos hbeqI]
      rw [hset, hkI]
      have hskip : ∀ kv ∈ (stripFlattenDict rest).toList,
          C.settable.contains kv.1 = true → ("_" ++ kv.1) ≠ k := by
        intro kv hkv _
        obtain ⟨kv2, hkv2, heq⟩ := stripFlatten_mem rest kv hkv
        have hkeyok2 := entriesOkB_keyOk C rest hrest kv2 hkv2
        obtain ⟨base2, hbase2⟩ : ∃ b2, storageKeyBase kv2.1 = some b2 := by
          unfold keyOkB at hkeyok2
          split at hkeyok2
          · next b2 hb2 => exact ⟨b2, hb2⟩
          · exact absurd hkeyok2 (by simp)
        obtain ⟨hu2, hs2⟩ := storageKeyBase_props kv2.1 base2 hbase2
        rw [heq, hs2, hu2]
        intro hcontra
        apply hknotin
        rw [← hcontra]
        exact mem_keys_of_mem_toList rest kv2 hkv2
      rw [fromDictGo_skip C (stripFlattenDict rest) rI k (flattenValue v) hskip]
      rw [fromDictGo_roundtrip C rest rI hrI hnodup2 hrest]
      rfl

set_option maxHeartbeats 800000 in
/-- C5: for every conforming `Model` instance (class name, storage keys and
setter-stored values as produced by the class's constructor and setters),
`from_dict(to_dict(m))` succeeds and serializing the result with `to_dict`
reproduces `to_dict(m)` — the round trip through the dict representation is
idempotent, with matching keys assigned through the typed setters. -/
theorem c5_to_dict_from_dict_roundtrip (C : ModelClass) (cls : String)
    (attrs : PyDict) (h : conformsB C cls attrs = true) :
    ∃ attrs2, from_dict C (to_dict cls attrs) = .ok attrs2 ∧
      to_dict C.name attrs2 = to_dict cls attrs := by
  rw [conformsB, Bool.and_eq_true] at h
  obtain ⟨h1, hok⟩ := h
  rw [Bool.and_eq_true] at h1
  obtain ⟨h2, hnd⟩ := h1
  rw [Bool.and_eq_true] at h2
  obtain ⟨hclsb, hkeysb⟩ := h2
  have hcls : cls = C.name := eq_of_beq hclsb
  have hkeys : attrs.keys = C.defaultAttrs.keys := of_decide_eq_true hkeysb
  have hnodup : attrs.keys.Nodup := of_decide_eq_true hnd
  have hmf : ∀ k ∈ attrs.keys, strHasPref (manglePref C.name) k = false := by
    intro k hk
    obtain ⟨v, hv⟩ := mem_toList_of_mem_keys attrs k hk
    have hko := entriesOkB_keyOk C attrs hok (k, v) hv
    unfold keyOkB at hko
    split at hko
    · rw [Bool.and_eq_true] at hko
      simpa using hko.2
    · exact absurd hko (by simp)
  have htd : to_dict cls attrs = stripFlattenDict attrs := by
    rw [hcls]
    exact to_dict_clean C.name attrs hmf
  have hfd : from_dict C (stripFlattenDict attrs) = .ok (flattenOnly attrs) := by
    rw [from_dict]
    exact fromDictGo_roundtrip C attrs C.defaultAttrs hkeys.symm hnodup hok
  have hmf2 : ∀ k ∈ (flattenOnly attrs).keys,
      strHasPref (manglePref C.name) k = false := by
    rw [flattenOnly_keys]
    exact hmf
  refine ⟨flattenOnly attrs, by rw [htd, hfd], ?_⟩
  rw [to_dict_clean C.name (flattenOnly attrs) hmf2, stripFlatten_flattenOnly, htd]

/-- Reflection data of `FormTemplate` (id/name set through plain storage,
`widgets` through a `[] if value is None else value` setter). -/
def formTemplateClass : ModelClass :=
  { name := "FormTemplate",
    defaultAttrs := .cons "_id" .none (.cons "_name" .none
      (.cons "_widgets" (.list .nil) .nil)),
    settable := ["id", "name", "widgets"],
    setterKind := fun k => if k == "widgets" then .noneToEmptyList else .plain }

/-- A concrete `FormTemplate` instance whose `widgets` list holds a model
object, exercising the list-flattening branch of `to_dict`. -/
def formTemplateInst : PyDict :=
  .cons "_id" (.int 7) (.cons "_name" (.str "tpl")
    (.cons "_widgets" (.list (.cons
      (.obj "Widget" (.cons "name" (.str "q1") .nil)) .nil)) .nil))

/-- C5 witness: the round trip on the concrete `FormTemplate` instance. -/
theorem c5_witness :
    conformsB formTemplateClass "FormTemplate" formTemplateInst = true ∧
    ∃ attrs2,
      from_dict formTemplateClass (to_dict "FormTemplate" formTemplateInst)
          = .ok attrs2 ∧
      to_dict formTemplateClass.name attrs2
          = to_dict "FormTemplate" formTemplateInst :=
  ⟨by decide, c5_to_dict_from_dict_roundtrip formTemplateClass "FormTemplate"
    formTemplateInst (by decide)⟩

/-! ### Claim C7: deserializer pre-transforms
(`models/deserializers/__init__.py`)

Each concrete `Deserializer` subclass with a custom `deserialize` rewrites
the payload dict before delegating to `from_dict`.  The embedding below
models that rewriting step — dict reads, `pop`s (with and without default),
in-place assignments, and the nested `batch` calls — and represents each
recursively deserialized child by the class-tagged object the delegate
constructs from its rewritten dict (`Widget(attributes=data)` as an
`obj "Widget"` holding the dict, a recursively handled group/area payload
by its rewritten dict).  `batch` wraps a non-list payload in a singleton
list and deserializes elementwise; an element without dict methods makes
the delegate's attribute access raise. -/

/-- `data[key]`, as an option: first entry with the key. -/
def dictGet : PyDict → String → Option PyVal
  | .nil, _ => Option.none
  | .cons k v r, key => if k == key then some v else dictGet r key

/-- `key in data`. -/
def dictContains (d : PyDict) (key : String) : Bool := (dictGet d key).isSome

/-- Remove the entry with the key, if any (`del data[key]` / the removal
half of `pop`). -/
def dictRemove : PyDict → String → PyDict
  | .nil, _ => .nil
  | .cons k v r, key => if k == key then r else .cons k v (dictRemove r key)

/-- `data.pop(key)` — `KeyError` when the key is absent. -/
def dictPop (d : PyDict) (key : String) : Except PyErr (PyVal × PyDict) :=
  match dictGet d key with
  | some v => .ok (v, dictRemove d key)
  | Option.none => .error (.keyError key)

/-- `data.pop(key, default)` — total. -/
def dictPopD (d : PyDict) (key : String) (dflt : PyVal) : PyVal × PyDict :=
  match dictGet d key with
  | some v => (v, dictRemove d key)
  | Option.none => (dflt, d)

/-- `WidgetDeserializer.deserialize`: `Widget(attributes=data)` stores the
attribute dict (`None` becomes `{}`); a non-mapping payload makes the
`defaultdict` copy raise. -/
def widgetDeser : PyVal → Except PyErr PyVal
  | .dict d => .ok (.obj "Widget" d)
  | .none => .ok (.obj "Widget" .nil)
  | _ => .error .typeError

/-- Elementwise widget deserialization of a list payload. -/
def widgetBatchList : PyList → Except PyErr PyList
  | .nil => .ok .nil
  | .cons item rest =>
    match widgetDeser item with
    | .error e => .error e
    | .ok w => (widgetBatchList rest).map (fun l => PyList.cons w l)

/-- `WidgetDeserializer().batch(data)`: a non-list payload is wrapped in a
singleton list first. -/
def widgetBatch : PyVal → Except PyErr PyVal
  | .list items => (widgetBatchList items).map PyVal.list
  | v => (widgetDeser v).map (fun w => PyVal.list (.cons w .nil))

/-- `LessonDeserializer.deserialize`'s rewriting: move `profile_photo` to
`photo` and `material_name` to `material` (both defaulting to `None`), and
drop a `children` entry if one is present.  Total. -/
def lessonPre (d : PyDict) : PyDict :=
  let p := dictPopD d "profile_photo" .none
  let d2 := setStorage p.2 "photo" p.1
  let m := dictPopD d2 "material_name" .none
  let d4 := setStorage m.2 "material" m.1
  if dictContains d4 "children" then dictRemove d4 "children" else d4

/-- Elementwise lesson deserialization of a list payload. -/
def lessonBatchList : PyList → Except PyErr PyList
  | .nil => .ok .nil
  | .cons item rest =>
    match item with
    | .dict d =>
      (lessonBatchList rest).map (fun l => PyList.cons (.dict (lessonPre d)) l)
    | _ => .error .attributeError

/-- `LessonDeserializer().batch(data)`. -/
def lessonBatch : PyVal → Except PyErr PyVal
  | .list items => (lessonBatchList items).map PyVal.list
  | .dict d => .ok (.list (.cons (.dict (lessonPre d)) .nil))
  | _ => .error .attributeError

/-- `GroupDeserializer.deserialize` and its recursive `batch`, as one
fuel-indexed function (the fuel bounds the recursion depth, standing in for
Python's recursion limit; every statement below holds for every sufficient
fuel).  In deserialize mode (`batchMode = false`) on a dict payload:
`data['subgroups'] = GroupDeserializer().batch(data.pop('children'))` —
`pop` *without* a default — then
`data['lessons'] = LessonDeserializer().batch(data.pop('lessons', []))`.
In batch mode a list payload is deserialized elementwise and any other
payload is wrapped in a singleton list. -/
def groupPreV : Nat → Bool → PyVal → Except PyErr PyVal
  | 0, _, _ => .error .attributeError
  | _fuel+1, false, .dict d =>
    match dictPop d "children" with
    | .error e => .error e
    | .ok cp =>
      match groupPreV _fuel true cp.1 with
      | .error e => .error e
      | .ok subs =>
        let d2 := setStorage cp.2 "subgroups" subs
        let lp := dictPopD d2 "lessons" (.list .nil)
        match lessonBatch lp.1 with
        | .error e => .error e
        | .ok ls => .ok (.dict (setStorage lp.2 "lessons" ls))
  | _+1, false, _ => .error .attributeError
  | _fuel+1, true, .list items =>
    match items with
    | .nil => .ok (.list .nil)
    | .cons item rest =>
      match groupPreV _fuel false item with
      | .error e => .error e
      | .ok g =>
        match groupPreV _fuel true (.list rest) with
        | .ok (.list l) => .ok (.list (.cons g l))
        | .ok other => .ok other
        | .error e => .error e
  | _fuel+1, true, v =>
    match groupPreV _fuel false v with
    | .error e => .error e
    | .ok g => .ok (.list (.cons g .nil))

/-- `AreaDeserializer.deserialize`'s rewriting:
`data['groups'] = GroupDeserializer().batch(data.pop('children'))` —
again `pop` without a default. -/
def areaPre (fuel : Nat) (d : PyDict) : Except PyErr PyDict :=
  match dictPop d "children" with
  | .error e => .error e
  | .ok cp =>
    match groupPreV fuel true cp.1 with
    | .error e => .error e
    | .ok gs => .ok (setStorage cp.2 "groups" gs)

/-- Elementwise area deserialization of a list payload. -/
def areaBatchList (fuel : Nat) : PyList → Except PyErr PyList
  | .nil => .ok .nil
  | .cons item rest =>
    match item with
    | .dict d =>
      match areaPre fuel d with
      | .error e => .error e
      | .ok a => (areaBatchList fuel rest).map (fun l => PyList.cons (.dict a) l)
    | _ => .error .attributeError

/-- `AreaDeserializer().batch(data)`. -/
def areaBatch (fuel : Nat) : PyVal → Except PyErr PyVal
  | .list items => (areaBatchList fuel items).map PyVal.list
  | .dict d => (areaPre fuel d).map (fun a => PyVal.list (.cons (.dict a) .nil))
  | _ => .error .attributeError

/-- The `Scale(name=k, values=v)` objects built from a `scales` dict, in
entry order (the model stores both arguments through plain setters). -/
def scaleList : PyDict → PyList
  | .nil => .nil
  | .cons k v r =>
    .cons (.obj "Scale" (.cons "_name" (.str k) (.cons "_values" v .nil)))
      (scaleList r)

/-- `LessonSetDeserializer.deserialize`'s rewriting: build `Scale` objects
from a `scales` dict entry if one is present (iterating a non-dict value's
`.items()` raises), store them under `scales`, then
`data['areas'] = AreaDeserializer().batch(data.pop('children'))` —
once more `pop` without a default. -/
def lessonSetPre (fuel : Nat) (d : PyDict) : Except PyErr PyDict :=
  match
    (match dictGet d "scales" with
      | Option.none => Except.ok PyList.nil
      | some (.dict sd) => Except.ok (scaleList sd)
      | some _ => Except.error PyErr.attributeError) with
  | .error e => .error e
  | .ok scales =>
    let d1 := setStorage d "scales" (.list scales)
    match dictPop d1 "children" with
    | .error e => .error e
    | .ok cp =>
      match areaBatch fuel cp.1 with
      | .error e => .error e
      | .ok av => .ok (setStorage cp.2 "areas" av)

/-- The `scales` entry, when present, is a dict (so that the scale loop
itself runs without raising). -/
def scalesOkB (d : PyDict) : Bool :=
  match dictGet d "scales" with
  | Option.none => true
  | some (.dict _) => true
  | some _ => false

/-- The widget-dict rows `{'name': name, 'value': data['fields'][name]}`
built from a `fields` dict, in entry order. -/
def fieldEntries : PyDict → PyList
  | .nil => .nil
  | .cons k v r =>
    .cons (.dict (.cons "name" (.str k) (.cons "value" v .nil))) (fieldEntries r)

/-- `FormDeserializer.deserialize`'s rewriting: collect name/value rows from
a `fields` dict entry if one is present (a non-dict value's `.keys()`
raises), widget-deserialize them, and assign the result to `fields`
(creating the entry when the payload had none). -/
def formPre (d : PyDict) : Except PyErr PyDict :=
  match
    (match dictGet d "fields" with
      | Option.none => Except.ok PyList.nil
      | some (.dict fd) => Except.ok (fieldEntries fd)
      | some _ => Except.error PyErr.attributeError) with
  | .error e => .error e
  | .ok fields =>
    match widgetBatch (.list fields) with
    | .error e => .error e
    | .ok wv => .ok (setStorage d "fields" wv)

/-- `OnlineApplicationDeserializer.deserialize` repeats
`FormDeserializer.deserialize`'s body verbatim. -/
def onlineApplicationPre (d : PyDict) : Except PyErr PyDict := formPre d

/-- `ConferenceReportDeserializer.deserialize`'s rewriting: a fresh dict of
`id`/`name`/`child_id` (each `data.get(key, None)`) and `widgets` from
`data.get("data", [])`, widget-deserialized. -/
def conferenceReportPre (d : PyDict) : Except PyErr PyDict :=
  match widgetBatch ((dictGet d "data").getD (.list .nil)) with
  | .error e => .error e
  | .ok wv =>
    .ok (.cons "id" ((dictGet d "id").getD .none)
      (.cons "name" ((dictGet d "name").getD .none)
        (.cons "child_id" ((dictGet d "child_id").getD .none)
          (.cons "widgets" wv .nil))))

/-- `FormTemplateDeserializer.deserialize`'s rewriting: widget-deserialize
the `widgets` entry only if one is present. -/
def formTemplatePre (d : PyDict) : Except PyErr PyDict :=
  match dictGet d "widgets" with
  | Option.none => .ok d
  | some v => (widgetBatch v).map (setStorage d "widgets")

/-- The partition loop of `AuthDeserializer.deserialize`: entries named in
`auth_properties` go to `auth_data`, all others to `user_data`, preserving
order. -/
def authSplit : PyDict → PyDict × PyDict
  | .nil => (.nil, .nil)
  | .cons k v r =>
    let p := authSplit r
    if ["school_id", "api_token", "push_tokens", "push_enabled"].contains k
    then (.cons k v p.1, p.2) else (p.1, .cons k v p.2)

/-- Reflection data of `User`: sixteen attributes, stored in constructor
order, every property setter a plain assignment. -/
def userClass : ModelClass :=
  { name := "User",
    defaultAttrs := .cons "_id" .none (.cons "_type" .none (.cons "_inactive" .none
      (.cons "_email" .none (.cons "_first_name" .none (.cons "_last_name" .none
        (.cons "_roles" .none (.cons "_accessible_classroom_ids" .none
          (.cons "_default_classroom_id" .none (.cons "_street" .none
            (.cons "_city" .none (.cons "_postal_code" .none
              (.cons "_state_province" .none (.cons "_home_number" .none
                (.cons "_mobile_number" .none
                  (.cons "_work_number" .none .nil))))))))))))))),
    settable := ["id", "type", "inactive", "email", "first_name", "last_name",
      "roles", "accessible_classroom_ids", "default_classroom_id", "street",
      "city", "postal_code", "state_province", "home_number", "mobile_number",
      "work_number"],
    setterKind := fun _ => .plain }

/-- `AuthDeserializer.deserialize`'s rewriting: split the payload into auth
and user entries, deserialize the user entries with
`UserDeserializer().deserialize` — which is plain `User.from_dict` — and
store the resulting `User` object under `auth_data["user"]`. -/
def authPre (d : PyDict) : Except PyErr PyDict :=
  match from_dict userClass (authSplit d).2 with
  | .error e => .error e
  | .ok userAttrs =>
    .ok (setStorage (authSplit d).1 "user" (.obj "User" userAttrs))

/-- An absent key reads as `None`-like absence. -/
theorem dictGet_none_of_not_contains (d : PyDict) (key : String)
    (h : dictContains d key = false) : dictGet d key = Option.none := by
  unfold dictContains at h
  cases hg : dictGet d key with
  | none => rfl
  | some v => rw [hg] at h; exact absurd h (by simp)

/-- Assignment stores the value under the key. -/
theorem dictGet_setStorage_self : (d : PyDict) → ∀ (k : String) (v : PyVal),
    dictGet (setStorage d k v) k = some v
  | .nil => by
    intro k v
    rw [setStorage, dictGet]
    simp
  | .cons k2 w r => by
    intro k v
    rw [setStorage]
    by_cases h : (k2 == k) = true
    · rw [if_pos h, dictGet, if_pos h]
    · rw [if_neg h, dictGet, if_neg h]
      exact dictGet_setStorage_self r k v
  termination_by d => d

/-- Assignment leaves other keys alone. -/
theorem dictGet_setStorage_ne : (d : PyDict) → ∀ (k k2 : String) (v : PyVal),
    k2 ≠ k → dictGet (setStorage d k2 v) k = dictGet d k
  | .nil => by
    intro k k2 v hne
    rw [setStorage, dictGet, dictGet, if_neg (by simpa using hne), dictGet]
  | .cons k3 w r => by
    intro k k2 v hne
    rw [setStorage]
    by_cases h : (k3 == k2) = true
    · have hk3 : k3 = k2 := eq_of_beq h
      subst hk3
      have hfalse : ¬((k3 == k) = true) := fun hc => hne (eq_of_beq hc)
      rw [if_pos h, dictGet, dictGet, if_neg hfalse, if_neg hfalse]
    · rw [if_neg h, dictGet, dictGet]
      by_cases h2 : (k3 == k) = true
      · rw [if_pos h2, if_pos h2]
      · rw [if_neg h2, if_neg h2]
        exact dictGet_setStorage_ne r k k2 v hne
  termination_by d => d

/-- Removal leaves other keys alone. -/
theorem dictGet_dictRemove_ne : (d : PyDict) → ∀ (k k2 : String),
    k2 ≠ k → dictGet (dictRemove d k2) k = dictGet d k
  | .nil => by intro k k2 _; rw [dictRemove]
  | .cons k3 w r => by
    intro k k2 hne
    rw [dictRemove]
    by_cases h : (k3 == k2) = true
    · have hk3 : k3 = k2 := eq_of_beq h
      subst hk3
      rw [if_pos h, dictGet, if_neg (fun hc => hne (eq_of_beq hc))]
    · rw [if_neg h, dictGet, dictGet]
      by_cases h2 : (k3 == k) = true
      · rw [if_pos h2, if_pos h2]
      · rw [if_neg h2, if_neg h2]
        exact dictGet_dictRemove_ne r k k2 hne
  termination_by d => d

/-- With only plain setter assignments no coercion can raise, so the
assignment loop of `from_dict` succeeds on every payload. -/
theorem fromDictGo_plain_total (C : ModelClass)
    (hC : ∀ k, C.setterKind k = CoerceKind.plain) :
    (data : PyDict) → ∀ inst : PyDict, ∃ r, fromDictGo C inst data = .ok r
  | .nil => fun inst => ⟨inst, rfl⟩
  | .cons k v rest => by
    intro inst
    by_cases hc : C.settable.contains k = true
    · obtain ⟨r, hr⟩ :=
        fromDictGo_plain_total C hC rest (setStorage inst ("_" ++ k) v)
      refine ⟨r, ?_⟩
      rw [fromDictGo]
      simp only [hc, if_true, hC k, applyCoerce]
      exact hr
    · obtain ⟨r, hr⟩ := fromDictGo_plain_total C hC rest inst
      refine ⟨r, ?_⟩
      rw [fromDictGo]
      simp only [hc, Bool.false_eq_true, if_false]
      exact hr

/-- C7 counterexample: the Group, Area and LessonSet deserializers call
`data.pop('children')` *without a default*, so a well-formed payload that
merely lacks the `children` key makes `deserialize` raise `KeyError`
instead of defaulting — the claimed totality over sparse payloads fails. -/
theorem c7_counterexample :
    groupPreV 1 false (.dict .nil) = .error (.keyError "children") ∧
    areaPre 0 .nil = .error (.keyError "children") ∧
    lessonSetPre 0 .nil = .error (.keyError "children") := by
  refine ⟨rfl, rfl, rfl⟩

/-- C7 (amended): the pre-transforms of the Lesson, Form, OnlineApplication,
ConferenceReport, FormTemplate and Auth deserializers are total over sparse
payloads — a missing key defaults (`photo`/`material` to `None`, `fields`
and `widgets` to empty, and the Auth split plus its nested `User.from_dict`,
whose setters are all plain assignments, succeed on every payload) — but
the Group, Area and LessonSet deserializers pop `children` with no default
and raise `KeyError` on any payload without that key (for LessonSet,
provided the optional `scales` entry is itself well formed, since it is
processed first). -/
theorem c7_pre_transform_totality (fuel : Nat) (d : PyDict) :
    (dictContains d "children" = false →
      groupPreV (fuel + 1) false (.dict d) = .error (.keyError "children") ∧
      areaPre fuel d = .error (.keyError "children") ∧
      (scalesOkB d = true →
        lessonSetPre fuel d = .error (.keyError "children"))) ∧
    (dictContains d "profile_photo" = false →
      dictGet (lessonPre d) "photo" = some PyVal.none) ∧
    (dictGet d "fields" = Option.none →
      formPre d = .ok (setStorage d "fields" (.list .nil)) ∧
      onlineApplicationPre d = .ok (setStorage d "fields" (.list .nil))) ∧
    (dictGet d "data" = Option.none →
      conferenceReportPre d
        = .ok (.cons "id" ((dictGet d "id").getD .none)
            (.cons "name" ((dictGet d "name").getD .none)
              (.cons "child_id" ((dictGet d "child_id").getD .none)
                (.cons "widgets" (.list .nil) .nil))))) ∧
    (dictGet d "widgets" = Option.none → formTemplatePre d = .ok d) ∧
    (∃ userAttrs, authPre d
      = .ok (setStorage (authSplit d).1 "user" (.obj "User" userAttrs))) := by
  refine ⟨?_, ?_, ?_, ?_, ?_, ?_⟩
  · intro hc
    have hget : dictGet d "children" = Option.none :=
      dictGet_none_of_not_contains d "children" hc
    have hpop : dictPop d "children" = .error (.keyError "children") := by
      rw [dictPop, hget]
    refine ⟨?_, ?_, ?_⟩
    · rw [groupPreV, hpop]
    · rw [areaPre, hpop]
    · intro hs
      rw [lessonSetPre]
      have hget1 : dictGet (setStorage d "scales" (.list (match dictGet d "scales" with
          | Option.none => PyList.nil
          | some (.dict sd) => scaleList sd
          | some _ => PyList.nil))) "children" = Option.none := by
        rw [dictGet_setStorage_ne d "children" "scales" _ (by decide), hget]
      unfold scalesOkB at hs
      cases hsg : dictGet d "scales" with
      | none =>
        have : dictPop (setStorage d "scales" (.list .nil)) "children"
            = .error (.keyError "children") := by
          rw [dictPop, dictGet_setStorage_ne d "children" "scales" _ (by decide), hget]
        dsimp only
        rw [this]
      | some sv =>
        rw [hsg] at hs
        cases sv with
        | dict sd =>
          have : dictPop (setStorage d "scales" (.list (scaleList sd))) "children"
              = .error (.keyError "children") := by
            rw [dictPop, dictGet_setStorage_ne d "children" "scales" _ (by decide), hget]
          dsimp only
          rw [this]
        | none => exact absurd hs (by simp)
        | bool b => exact absurd hs (by simp)
        | int n => exact absurd hs (by simp)
        | float q => exact absurd hs (by simp)
        | str s => exact absurd hs (by simp)
        | date dt => exact absurd hs (by simp)
        | datetime dt => exact absurd hs (by simp)
        | list l => exact absurd hs (by simp)
        | obj c a => exact absurd hs (by simp)
  · intro hp
    have hget : dictGet d "profile_photo" = Option.none :=
      dictGet_none_of_not_contains d "profile_photo" hp
    rw [lessonPre]
    simp only [dictPopD, hget]
    have h1 : dictGet (setStorage d "photo" PyVal.none) "photo" = some PyVal.none :=
      dictGet_setStorage_self d "photo" PyVal.none
    cases hm : dictGet (setStorage d "photo" PyVal.none) "material_name" with
    | none =>
      simp only [hm]
      have h2 : dictGet (setStorage (setStorage d "photo" PyVal.none)
          "material" PyVal.none) "photo" = some PyVal.none := by
        rw [dictGet_setStorage_ne _ "photo" "material" _ (by decide), h1]
      split
      · rw [dictGet_dictRemove_ne _ "photo" "children" (by decide), h2]
      · exact h2
    | some mv =>
      simp only [hm]
      have h2 : dictGet (setStorage (dictRemove (setStorage d "photo" PyVal.none)
          "material_name") "material" mv) "photo" = some PyVal.none := by
        rw [dictGet_setStorage_ne _ "photo" "material" _ (by decide),
          dictGet_dictRemove_ne _ "photo" "material_name" (by decide), h1]
      split
      · rw [dictGet_dictRemove_ne _ "photo" "children" (by decide), h2]
      · exact h2
  · intro hf
    constructor
    · rw [formPre, hf]
      rfl
    · rw [onlineApplicationPre, formPre, hf]
      rfl
  · intro hd
    rw [conferenceReportPre, hd]
    rfl
  · intro hw
    rw [formTemplatePre, hw]
  · obtain ⟨u, hu⟩ := fromDictGo_plain_total userClass (fun k => rfl)
      (authSplit d).2 userClass.defaultAttrs
    refine ⟨u, ?_⟩
    unfold authPre
    rw [from_dict, hu]

/-- C7 witness: a one-entry payload without the special keys. -/
theorem c7_witness :
    (dictContains (PyDict.cons "id" (.int 3) .nil) "children" = false ∧
      groupPreV 1 false (.dict (PyDict.cons "id" (.int 3) .nil))
          = .error (.keyError "children")) ∧
    (dictGet (PyDict.cons "id" (.int 3) .nil) "fields" = Option.none ∧
      formPre (PyDict.cons "id" (.int 3) .nil)
        = .ok (setStorage (PyDict.cons "id" (.int 3) .nil) "fields"
            (.list .nil))) ∧
    (∃ userAttrs, authPre (PyDict.cons "id" (.int 3) .nil)
      = .ok (setStorage (authSplit (PyDict.cons "id" (.int 3) .nil)).1 "user"
          (.obj "User" userAttrs))) :=
  ⟨⟨by decide,
      ((c7_pre_transform_totality 0 (PyDict.cons "id" (.int 3) .nil)).1
        (by decide)).1⟩,
    ⟨by decide,
      ((c7_pre_transform_totality 0 (PyDict.cons "id" (.int 3) .nil)).2.2.1
        (by decide)).1⟩,
    (c7_pre_transform_totality 0 (PyDict.cons "id" (.int 3) .nil)).2.2.2.2.2⟩

end TC
